import Mathlib

/-!
Telegram device marketplace: catalogue cache over the SQLite store

A shallow embedding of `src/main.go` (the DB-backed `BotState`), `src/database.go`
(the `Database` wrapper around the SQL driver) and `src/main_sqlite_disabled.go`
(the store-less `BotState`).

Conventions of the embedding.

* Go `int` and `int64` values are integers; the only arithmetic of the program,
  `NextDeviceID++` and `int(maxID.Int64) + 1`, wraps in 64 bits (`wrapInt`).
* Go strings coming from the chat transport are valid UTF-8, so they are modelled
  as `String` (sequences of code points).
* Go maps are modelled as partial functions (`key → Option value`).
* `sync.Mutex` is not modelled: every method body runs as one atomic step.
* The SQL engine behind `Database` is modelled by its tables: rows of `devices`
  in rowid order, rows of `users`, and the AUTOINCREMENT high-water mark. Every
  driver call takes a fault argument: `none` when the call goes through, `some e`
  when the driver reports the error `e`.
-/

namespace Marketplace

/-! ## Machine integers -/

/-- Largest value of a Go `int` on a 64-bit platform. -/
def maxInt : Int := 9223372036854775807

/-- Two's complement wrap-around of 64-bit signed arithmetic. -/
def wrapInt (x : Int) : Int := (x + 9223372036854775808) % 18446744073709551616 - 9223372036854775808

/-! ## Data model (`main.go`, lines 16-43) -/

/-- Values of Go `float64` as far as the program distinguishes them: a finite value
(a rational), an infinity, or not-a-number. -/
inductive Float64 where
  | finite (q : Rat)
  | inf (negative : Bool)
  | nan
  deriving DecidableEq

instance : Inhabited Float64 := ⟨Float64.finite 0⟩

/-- Listing record: `type Device struct`. -/
structure Device where
  ID : Int
  Name : String
  Description : String
  Price : Float64
  SellerID : Int
  SellerName : String
  Contact : String
  Category : String
  deriving DecidableEq

/-- Zero value `Device{}`. -/
def Device.zero : Device := ⟨0, "", "", Float64.finite 0, 0, "", "", ""⟩

/-- User record: `type User struct`. -/
structure User where
  ID : Int
  FirstName : String
  LastName : String
  Username : String
  Contact : String
  deriving DecidableEq

/-- An error value returned by the SQL driver. The program only compares it with
`nil` and logs it. -/
structure StoreError where
  msg : String
  deriving DecidableEq

/-! ## The store (`database.go`) -/

/-- SQL statements that `Database` sends to the engine. -/
inductive StoreCall where
  | upsertUser (id : Int)
  | selectUsers
  | insertDevice (device : Device)
  | selectDevices
  | selectDevicesByCategory (category : String)
  | selectDevicesByUser (userID : Int)
  | selectDeviceByID (deviceID : Int)
  | deleteDevice (deviceID : Int)
  | searchDevices (pattern : String)
  | selectMaxID
  deriving DecidableEq

/-- State of the SQLite database behind `type Database struct`: the rows of the two
tables created by `createTables`, the AUTOINCREMENT high-water mark of `devices`
(`sqlite_sequence`), and the statements sent so far (oldest first). -/
structure Database where
  users : List User
  devices : List Device
  seq : Int
  calls : List StoreCall

/-- A freshly created database: `CREATE TABLE IF NOT EXISTS` on an empty file. -/
def Database.empty : Database := ⟨[], [], 0, []⟩

/-- Result of `SELECT MAX(id) FROM devices`: NULL on an empty table. -/
def maxID : List Device → Option Int
  | [] => none
  | d :: ds =>
    match maxID ds with
    | none => some d.ID
    | some m => some (max d.ID m)

/-- Rowid chosen by AUTOINCREMENT for the next inserted row: one more than the largest
rowid ever present in the table. -/
def Database.nextRowid (d : Database) : Int :=
  match maxID d.devices with
  | none => d.seq + 1
  | some m => max d.seq m + 1

/-- `INSERT OR REPLACE INTO users`: the row with the same primary key is replaced. -/
def upsertRow (user : User) (rows : List User) : List User :=
  rows.filter (fun r => r.ID ≠ user.ID) ++ [user]

/-- `Database.SaveUser` (lines 68-74). -/
def Database.SaveUser (d : Database) (fault : Option StoreError) (user : User) :
    Except StoreError Unit × Database :=
  let d1 := { d with calls := d.calls ++ [StoreCall.upsertUser user.ID] }
  match fault with
  | some err => (.error err, d1)
  | none => (.ok (), { d1 with users := upsertRow user d.users })

/-- The map built by the scan loop of `GetUsers`: `users[user.ID] = user` for each row. -/
def usersMap : List User → (Int → Option User)
  | [] => fun _ => none
  | u :: rest => fun k =>
    match usersMap rest k with
    | some later => some later
    | none => if k = u.ID then some u else none

/-- `Database.GetUsers` (lines 76-99). -/
def Database.GetUsers (d : Database) (fault : Option StoreError) :
    Except StoreError (Int → Option User) × Database :=
  let d1 := { d with calls := d.calls ++ [StoreCall.selectUsers] }
  match fault with
  | some err => (.error err, d1)
  | none => (.ok (usersMap d.users), d1)

/-- `Database.SaveDevice` (lines 101-117). `execFault` is the outcome of `d.db.Exec`,
`idFault` that of `result.LastInsertId()`. The engine refuses the insert when the
rowid space is exhausted. -/
def Database.SaveDevice (d : Database) (execFault idFault : Option StoreError)
    (device : Device) : Except StoreError Int × Database :=
  let d1 := { d with calls := d.calls ++ [StoreCall.insertDevice device] }
  match execFault with
  | some err => (.error err, d1)
  | none =>
    let id := d.nextRowid
    if maxInt < id then (.error ⟨"database or disk is full"⟩, d1)
    else
      let d2 := { d1 with devices := d.devices ++ [{ device with ID := id }], seq := id }
      match idFault with
      | some err => (.error err, d2)
      | none => (.ok id, d2)

/-- `Database.GetDevices` (lines 119-143). -/
def Database.GetDevices (d : Database) (fault : Option StoreError) :
    Except StoreError (List Device) × Database :=
  let d1 := { d with calls := d.calls ++ [StoreCall.selectDevices] }
  match fault with
  | some err => (.error err, d1)
  | none => (.ok d.devices, d1)

/-- `Database.GetDevicesByCategory` (lines 145-170): `WHERE category = ?`. -/
def Database.GetDevicesByCategory (d : Database) (fault : Option StoreError)
    (category : String) : Except StoreError (List Device) × Database :=
  let d1 := { d with calls := d.calls ++ [StoreCall.selectDevicesByCategory category] }
  match fault with
  | some err => (.error err, d1)
  | none => (.ok (d.devices.filter (fun r => r.Category = category)), d1)

/-- `Database.GetDevicesByUser` (lines 172-197): `WHERE seller_id = ?`. -/
def Database.GetDevicesByUser (d : Database) (fault : Option StoreError)
    (userID : Int) : Except StoreError (List Device) × Database :=
  let d1 := { d with calls := d.calls ++ [StoreCall.selectDevicesByUser userID] }
  match fault with
  | some err => (.error err, d1)
  | none => (.ok (d.devices.filter (fun r => r.SellerID = userID)), d1)

/-- `Database.GetDeviceByID` (lines 199-214): `sql.ErrNoRows` is reported as
"not found" without an error. -/
def Database.GetDeviceByID (d : Database) (fault : Option StoreError)
    (deviceID : Int) : Except StoreError (Device × Bool) × Database :=
  let d1 := { d with calls := d.calls ++ [StoreCall.selectDeviceByID deviceID] }
  match fault with
  | some err => (.error err, d1)
  | none =>
    match d.devices.find? (fun r => r.ID = deviceID) with
    | none => (.ok (Device.zero, false), d1)
    | some device => (.ok (device, true), d1)

/-- `Database.RemoveDevice` (lines 216-221): `DELETE FROM devices WHERE id = ?`;
the number of affected rows is not inspected. -/
def Database.RemoveDevice (d : Database) (fault : Option StoreError)
    (deviceID : Int) : Except StoreError Unit × Database :=
  let d1 := { d with calls := d.calls ++ [StoreCall.deleteDevice deviceID] }
  match fault with
  | some err => (.error err, d1)
  | none => (.ok (), { d1 with devices := d.devices.filter (fun r => r.ID ≠ deviceID) })

/-- `Database.SearchDevices` (lines 223-249): `name LIKE ? OR description LIKE ?` with
the pattern `"%" + query + "%"`. The engine's `LIKE` operator is the parameter `like`
(pattern first, text second). -/
def Database.SearchDevices (d : Database) (like : String → String → Bool)
    (fault : Option StoreError) (query : String) :
    Except StoreError (List Device) × Database :=
  let searchPattern := "%" ++ query ++ "%"
  let d1 := { d with calls := d.calls ++ [StoreCall.searchDevices searchPattern] }
  match fault with
  | some err => (.error err, d1)
  | none =>
    (.ok (d.devices.filter (fun r => like searchPattern r.Name || like searchPattern r.Description)), d1)

/-- `Database.GetNextDeviceID` (lines 251-265). -/
def Database.GetNextDeviceID (d : Database) (fault : Option StoreError) :
    Except StoreError Int × Database :=
  let d1 := { d with calls := d.calls ++ [StoreCall.selectMaxID] }
  match fault with
  | some err => (.error err, d1)
  | none =>
    match maxID d.devices with
    | some m => (.ok (wrapInt (m + 1)), d1)
    | none => (.ok 1, d1)

/-! ## Go standard library: `strings.ToLower`, `strings.Contains` -/

/-- `unicode.ToLower`: ASCII letters are shifted, every other rune goes through the
Unicode case tables, which are the parameter `caseTable`. -/
def unicodeToLower (caseTable : Char → Char) (r : Char) : Char :=
  if r.toNat ≤ 127 then
    if 65 ≤ r.toNat ∧ r.toNat ≤ 90 then Char.ofNat (r.toNat + 32) else r
  else caseTable r

/-- `strings.ToLower`: every rune of the string is mapped through `unicode.ToLower`. -/
def ToLower (caseTable : Char → Char) (s : String) : String :=
  ⟨s.data.map (unicodeToLower caseTable)⟩

/-- Scan of `strings.Index`: is `substr` found at some offset of `s`? -/
def containsChars : List Char → List Char → Bool
  | [], substr => substr.isEmpty
  | c :: rest, substr => substr.isPrefixOf (c :: rest) || containsChars rest substr

/-- `strings.Contains(s, substr)`. -/
def Contains (s substr : String) : Bool := containsChars s.data substr.data

/-! ## Cache loops shared by both builds -/

/-- Index at which the loop `for i, device := range bs.Devices` first meets
`device.ID == deviceID`. -/
def firstIndexOfID (deviceID : Int) : List Device → Option Nat
  | [] => none
  | device :: rest =>
    if device.ID = deviceID then some 0 else (firstIndexOfID deviceID rest).map (· + 1)

/-- Slice expression `append(bs.Devices[:i], bs.Devices[i+1:]...)`. -/
def cutAt (i : Nat) (devices : List Device) : List Device :=
  devices.take i ++ devices.drop (i + 1)

/-- Loop `for _, device := range bs.Devices { if device.Category == category { append } }`. -/
def categoryLoop (category : String) (devices : List Device) : List Device :=
  devices.foldl (fun categoryDevices device =>
    if device.Category = category then categoryDevices ++ [device] else categoryDevices) []

/-- Loop `for _, device := range bs.Devices { if device.SellerID == userID { append } }`. -/
def userLoop (userID : Int) (devices : List Device) : List Device :=
  devices.foldl (fun userDevices device =>
    if device.SellerID = userID then userDevices ++ [device] else userDevices) []

/-- Loop of the cache search: both fields and the query are lower-cased first. -/
def searchLoop (caseTable : Char → Char) (query : String) (devices : List Device) :
    List Device :=
  let lowerQuery := ToLower caseTable query
  devices.foldl (fun foundDevices device =>
    if Contains (ToLower caseTable device.Name) lowerQuery ||
        Contains (ToLower caseTable device.Description) lowerQuery
    then foundDevices ++ [device] else foundDevices) []

/-- Loop `for _, device := range bs.Devices { if device.ID == deviceID { return device, true } }`
followed by `return Device{}, false`. -/
def findLoop (deviceID : Int) : List Device → Device × Bool
  | [] => (Device.zero, false)
  | device :: rest => if device.ID = deviceID then (device, true) else findLoop deviceID rest

/-! ## DB-backed `BotState` (`main.go`) -/

/-- State behind `type BotState struct` (lines 35-43); `db` is the store reached through
the `*Database` pointer. -/
structure BotState where
  db : Database
  Devices : List Device
  Users : Int → Option User
  UserStates : Int → Option String
  WaitingInput : Int → Option (String → Option String)
  NextDeviceID : Int

/-- `BotState.loadFromDB` (lines 61-85): three independent best-effort loads. -/
def BotState.loadFromDB (bs : BotState) (usersFault devicesFault nextFault : Option StoreError) :
    BotState :=
  let users := bs.db.GetUsers usersFault
  let bs1 : BotState :=
    match users.1 with
    | .error _ => { bs with db := users.2 }
    | .ok m => { bs with db := users.2, Users := m }
  let devices := bs1.db.GetDevices devicesFault
  let bs2 : BotState :=
    match devices.1 with
    | .error _ => { bs1 with db := devices.2 }
    | .ok ds => { bs1 with db := devices.2, Devices := ds }
  let nextID := bs2.db.GetNextDeviceID nextFault
  match nextID.1 with
  | .error _ => { bs2 with db := nextID.2 }
  | .ok n => { bs2 with db := nextID.2, NextDeviceID := n }

/-- `NewBotState` (lines 45-59). -/
def NewBotState (db : Database) (usersFault devicesFault nextFault : Option StoreError) :
    BotState :=
  let state : BotState :=
    { db := db, Devices := [], Users := fun _ => none, UserStates := fun _ => none,
      WaitingInput := fun _ => none, NextDeviceID := 1 }
  state.loadFromDB usersFault devicesFault nextFault

/-- `BotState.GetDevices` (lines 87-91). -/
def BotState.GetDevices (bs : BotState) : List Device × BotState :=
  (bs.Devices, bs)

/-- `BotState.GetDevicesByCategory` (lines 93-112). -/
def BotState.GetDevicesByCategory (bs : BotState) (fault : Option StoreError)
    (category : String) : List Device × BotState :=
  let r := bs.db.GetDevicesByCategory fault category
  let bs1 : BotState := { bs with db := r.2 }
  match r.1 with
  | .error _ => (categoryLoop category bs1.Devices, bs1)
  | .ok devices => (devices, bs1)

/-- `BotState.GetUserDevices` (lines 114-133). -/
def BotState.GetUserDevices (bs : BotState) (fault : Option StoreError)
    (userID : Int) : List Device × BotState :=
  let r := bs.db.GetDevicesByUser fault userID
  let bs1 : BotState := { bs with db := r.2 }
  match r.1 with
  | .error _ => (userLoop userID bs1.Devices, bs1)
  | .ok devices => (devices, bs1)

/-- `BotState.AddDevice` (lines 135-151). -/
def BotState.AddDevice (bs : BotState) (execFault idFault : Option StoreError)
    (device : Device) : BotState :=
  let r := bs.db.SaveDevice execFault idFault device
  let bs1 : BotState := { bs with db := r.2 }
  match r.1 with
  | .error _ =>
    { bs1 with
      Devices := bs1.Devices ++ [{ device with ID := bs1.NextDeviceID }]
      NextDeviceID := wrapInt (bs1.NextDeviceID + 1) }
  | .ok id => { bs1 with Devices := bs1.Devices ++ [{ device with ID := id }] }

/-- `BotState.RemoveDevice` (lines 153-180). -/
def BotState.RemoveDevice (bs : BotState) (fault : Option StoreError)
    (deviceID : Int) : Bool × BotState :=
  let r := bs.db.RemoveDevice fault deviceID
  let bs1 : BotState := { bs with db := r.2 }
  match r.1 with
  | .error _ =>
    match firstIndexOfID deviceID bs1.Devices with
    | some i => (true, { bs1 with Devices := cutAt i bs1.Devices })
    | none => (false, bs1)
  | .ok _ =>
    match firstIndexOfID deviceID bs1.Devices with
    | some i => (true, { bs1 with Devices := cutAt i bs1.Devices })
    | none => (true, bs1)

/-- `BotState.FindDeviceByID` (lines 182-200). -/
def BotState.FindDeviceByID (bs : BotState) (fault : Option StoreError)
    (deviceID : Int) : (Device × Bool) × BotState :=
  let r := bs.db.GetDeviceByID fault deviceID
  let bs1 : BotState := { bs with db := r.2 }
  match r.1 with
  | .error _ => (findLoop deviceID bs1.Devices, bs1)
  | .ok found => (found, bs1)

/-- `BotState.SaveUser` (lines 202-212). -/
def BotState.SaveUser (bs : BotState) (fault : Option StoreError) (user : User) : BotState :=
  let r := bs.db.SaveUser fault user
  { bs with db := r.2, Users := fun k => if k = user.ID then some user else bs.Users k }

/-- `BotState.SearchDevices` (lines 214-235). -/
def BotState.SearchDevices (bs : BotState) (like : String → String → Bool)
    (caseTable : Char → Char) (fault : Option StoreError) (query : String) :
    List Device × BotState :=
  let r := bs.db.SearchDevices like fault query
  let bs1 : BotState := { bs with db := r.2 }
  match r.1 with
  | .error _ => (searchLoop caseTable query bs1.Devices, bs1)
  | .ok devices => (devices, bs1)

/-- `BotState.SetUserState` (lines 237-241). -/
def BotState.SetUserState (bs : BotState) (userID : Int) (state : String) : BotState :=
  { bs with UserStates := fun k => if k = userID then some state else bs.UserStates k }

/-- `BotState.GetUserState` (lines 243-247): a missing key reads as the empty string. -/
def BotState.GetUserState (bs : BotState) (userID : Int) : String × BotState :=
  ((bs.UserStates userID).getD "", bs)

/-- `BotState.SetWaitingInput` (lines 249-256). -/
def BotState.SetWaitingInput (bs : BotState) (userID : Int) (key value : String) : BotState :=
  let input : String → Option String := (bs.WaitingInput userID).getD (fun _ => none)
  { bs with
    WaitingInput := fun k =>
      if k = userID then some (fun f => if f = key then some value else input f)
      else bs.WaitingInput k }

/-- `BotState.GetWaitingInput` (lines 258-265). -/
def BotState.GetWaitingInput (bs : BotState) (userID : Int) :
    (String → Option String) × BotState :=
  match bs.WaitingInput userID with
  | some input => (input, bs)
  | none => (fun _ => none, bs)

/-- `BotState.ClearWaitingInput` (lines 267-271). -/
def BotState.ClearWaitingInput (bs : BotState) (userID : Int) : BotState :=
  { bs with WaitingInput := fun k => if k = userID then none else bs.WaitingInput k }

/-! ## Store-less `BotState` (`main_sqlite_disabled.go`) -/

namespace NoDB

/-- State behind `type BotState struct` of the store-less build (lines 33-40). -/
structure BotState where
  Devices : List Device
  Users : Int → Option User
  UserStates : Int → Option String
  WaitingInput : Int → Option (String → Option String)
  NextDeviceID : Int

/-- `NewBotState` (lines 42-50). -/
def NewBotState : BotState :=
  { Devices := [], Users := fun _ => none, UserStates := fun _ => none,
    WaitingInput := fun _ => none, NextDeviceID := 1 }

/-- `BotState.GetDevices` (lines 52-56). -/
def BotState.GetDevices (bs : BotState) : List Device × BotState :=
  (bs.Devices, bs)

/-- `BotState.GetDevicesByCategory` (lines 58-68). -/
def BotState.GetDevicesByCategory (bs : BotState) (category : String) :
    List Device × BotState :=
  (categoryLoop category bs.Devices, bs)

/-- `BotState.GetUserDevices` (lines 70-80). -/
def BotState.GetUserDevices (bs : BotState) (userID : Int) : List Device × BotState :=
  (userLoop userID bs.Devices, bs)

/-- `BotState.AddDevice` (lines 82-88). -/
def BotState.AddDevice (bs : BotState) (device : Device) : BotState :=
  { bs with
    Devices := bs.Devices ++ [{ device with ID := bs.NextDeviceID }]
    NextDeviceID := wrapInt (bs.NextDeviceID + 1) }

/-- `BotState.RemoveDevice` (lines 90-100). -/
def BotState.RemoveDevice (bs : BotState) (deviceID : Int) : Bool × BotState :=
  match firstIndexOfID deviceID bs.Devices with
  | some i => (true, { bs with Devices := cutAt i bs.Devices })
  | none => (false, bs)

/-- `BotState.FindDeviceByID` (lines 102-111). -/
def BotState.FindDeviceByID (bs : BotState) (deviceID : Int) : (Device × Bool) × BotState :=
  (findLoop deviceID bs.Devices, bs)

/-- `BotState.SaveUser` (lines 113-117). -/
def BotState.SaveUser (bs : BotState) (user : User) : BotState :=
  { bs with Users := fun k => if k = user.ID then some user else bs.Users k }

/-- `BotState.SearchDevices` (lines 119-131). -/
def BotState.SearchDevices (bs : BotState) (caseTable : Char → Char) (query : String) :
    List Device × BotState :=
  (searchLoop caseTable query bs.Devices, bs)

end NoDB

/-! ## Runs of the DB-backed service -/

/-- One call of a public `BotState` method of `main.go`, together with the outcome of the
driver calls it makes. -/
inductive Op where
  | GetDevices
  | GetDevicesByCategory (fault : Option StoreError) (category : String)
  | GetUserDevices (fault : Option StoreError) (userID : Int)
  | AddDevice (execFault idFault : Option StoreError) (device : Device)
  | RemoveDevice (fault : Option StoreError) (deviceID : Int)
  | FindDeviceByID (fault : Option StoreError) (deviceID : Int)
  | SaveUser (fault : Option StoreError) (user : User)
  | SearchDevices (fault : Option StoreError) (query : String)
  | SetUserState (userID : Int) (state : String)
  | GetUserState (userID : Int)
  | SetWaitingInput (userID : Int) (key value : String)
  | GetWaitingInput (userID : Int)
  | ClearWaitingInput (userID : Int)

/-- State after one call. -/
def BotState.step (like : String → String → Bool) (caseTable : Char → Char)
    (bs : BotState) : Op → BotState
  | .GetDevices => bs.GetDevices.2
  | .GetDevicesByCategory fault category => (bs.GetDevicesByCategory fault category).2
  | .GetUserDevices fault userID => (bs.GetUserDevices fault userID).2
  | .AddDevice execFault idFault device => bs.AddDevice execFault idFault device
  | .RemoveDevice fault deviceID => (bs.RemoveDevice fault deviceID).2
  | .FindDeviceByID fault deviceID => (bs.FindDeviceByID fault deviceID).2
  | .SaveUser fault user => bs.SaveUser fault user
  | .SearchDevices fault query => (bs.SearchDevices like caseTable fault query).2
  | .SetUserState userID state => bs.SetUserState userID state
  | .GetUserState userID => (bs.GetUserState userID).2
  | .SetWaitingInput userID key value => bs.SetWaitingInput userID key value
  | .GetWaitingInput userID => (bs.GetWaitingInput userID).2
  | .ClearWaitingInput userID => bs.ClearWaitingInput userID

/-- State after a sequence of calls, oldest first. -/
def BotState.run (like : String → String → Bool) (caseTable : Char → Char)
    (bs : BotState) (ops : List Op) : BotState :=
  ops.foldl (BotState.step like caseTable) bs

/-- The ID that a call gives to a new listing: `some (id, tentative)` for `AddDevice`,
where `tentative` tells that the store insert failed and the ID came from
`NextDeviceID`; `none` for every other call. -/
def BotState.assigns (bs : BotState) : Op → Option (Int × Bool)
  | .AddDevice execFault idFault device =>
    match (bs.db.SaveDevice execFault idFault device).1 with
    | .error _ => some (bs.NextDeviceID, true)
    | .ok id => some (id, false)
  | _ => none

/-- IDs given to new listings along a run, oldest first, each with its `tentative` flag. -/
def BotState.assigned (like : String → String → Bool) (caseTable : Char → Char) :
    BotState → List Op → List (Int × Bool)
  | _, [] => []
  | bs, op :: ops =>
    match bs.assigns op with
    | some a => a :: BotState.assigned like caseTable (bs.step like caseTable op) ops
    | none => BotState.assigned like caseTable (bs.step like caseTable op) ops

/-! ## Properties stated by the specification -/

/-- Smallest value of a Go `int` on a 64-bit platform. -/
def minInt : Int := -9223372036854775808

/-- Fallback correctness as the specification words it, for a run `ops` of the service
started in `bs0`: whenever `AddDevice` runs with the store insert failing, the ID it
assigns exceeds every ID assigned earlier in the run, store-returned or tentative,
and every ID of a listing held by `bs0` (the listings loaded at startup). -/
def FallbackIDsFresh (like : String → String → Bool) (caseTable : Char → Char)
    (bs0 : BotState) (ops : List Op) : Prop :=
  ∀ (pre : List Op) (op : Op) (post : List Op) (i : Int),
    ops = pre ++ op :: post →
    (bs0.run like caseTable pre).assigns op = some (i, true) →
    (∀ a ∈ bs0.assigned like caseTable pre, a.1 < i) ∧ (∀ d ∈ bs0.Devices, d.ID < i)

/-- A listing used in the worked examples. -/
def galaxyNote : Device :=
  ⟨0, "Galaxy Note", "like new", Float64.finite 35000, 7, "Ann", "@ann", "smartphone"⟩

/-- A driver error used in the worked examples. -/
def storeDown : StoreError := ⟨"unable to open database file"⟩

/-- A `LIKE` operator that matches nothing; the worked examples never search the store. -/
def likeNothing : String → String → Bool := fun _ _ => false

/-- A store that already holds one listing, with ID 5. -/
def oneListingStore : Database :=
  ⟨[], [{ galaxyNote with ID := 5 }], 5, []⟩

/-- The state reached from an empty store by one successful and one failing insert: the
cache holds two listings that both carry ID 1, the store holds the first of them. -/
def collidingState : BotState :=
  ((NewBotState Database.empty none none none).AddDevice none none galaxyNote).AddDevice
    (some storeDown) none { galaxyNote with Name := "Pixel 8" }

/-- A store-less state holding the listings 1 and 2. -/
def twoListings : NoDB.BotState :=
  (NoDB.NewBotState.AddDevice galaxyNote).AddDevice { galaxyNote with Name := "Pixel 8" }

/-- Case-insensitive containment as the specification words it: the lower-cased query
occurs as a contiguous run of code points inside the lower-cased text. -/
def ContainsFold (caseTable : Char → Char) (text query : String) : Prop :=
  (ToLower caseTable query).data <:+: (ToLower caseTable text).data

instance (caseTable : Char → Char) (text query : String) :
    Decidable (ContainsFold caseTable text query) := by
  unfold ContainsFold
  infer_instance

/-- A DB-backed state whose cache holds one listing named "Galaxy Note". -/
def galaxyState : BotState :=
  (NewBotState Database.empty none none none).AddDevice none none galaxyNote

/-- The cache, the tentative counter and the session registry of `after` are those of
`before`. -/
def FrameKept (before after : BotState) : Prop :=
  after.Devices = before.Devices ∧ after.NextDeviceID = before.NextDeviceID ∧
    after.UserStates = before.UserStates ∧ after.WaitingInput = before.WaitingInput

/-- A user used in the worked examples. -/
def ann : User := ⟨7, "Ann", "Lee", "ann", ""⟩

/-- The user ID that a call carries as an argument, if it carries one: the `userID`
parameter, the seller of the listing to add, or the ID of the user to save. -/
def Op.userID? : Op → Option Int
  | .GetUserDevices _ userID => some userID
  | .AddDevice _ _ device => some device.SellerID
  | .SaveUser _ user => some user.ID
  | .SetUserState userID _ => some userID
  | .GetUserState userID => some userID
  | .SetWaitingInput userID _ _ => some userID
  | .GetWaitingInput userID => some userID
  | .ClearWaitingInput userID => some userID
  | _ => none

/-! ## The dialogue handlers (`main.go`, lines 305-560) -/

/-- `strings.HasPrefix`. -/
def HasPrefix (s pre : String) : Bool := pre.data.isPrefixOf s.data

/-- `strings.TrimPrefix`. -/
def TrimPrefix (s pre : String) : String :=
  if HasPrefix s pre then ⟨s.data.drop pre.data.length⟩ else s

/-- Functions of the SQL engine and of the Go standard library that the program calls
and whose code is outside the repository: the engine's `LIKE`, the Unicode lower-case
table, and the two scans `fmt.Sscanf(text, "%f", &price)` and
`fmt.Sscanf(text, "%d", &deviceID)`. A scan returns the value it stores, or `none` when
it fails and leaves the variable untouched. -/
structure Library where
  like : String → String → Bool
  caseTable : Char → Char
  scanFloat : String → Option Float64
  scanInt : String → Option Int

/-- The fields of `tgbotapi.Message` read by `handleMessage`; `IsCommand` and `Command`
hold the results of the library methods of the same names. -/
structure Message where
  FromID : Int
  FirstName : String
  LastName : String
  UserName : String
  ChatID : Int
  Text : String
  IsCommand : Bool
  Command : String

/-- The fields of `tgbotapi.CallbackQuery` read by `handleCallbackQuery`. -/
structure CallbackQuery where
  FromID : Int
  FirstName : String
  ChatID : Int
  Data : String

/-- The messages the handlers send with `bot.Send`, one constructor per message text; the
wording and the keyboards are left out. -/
inductive Reply where
  | unknownCommand
  | welcome (firstName : String)
  | help
  | askName
  | askDescription
  | askPrice
  | askContact
  | askCategory
  | askQuery
  | nothingFound
  | foundCount (n : Nat)
  | deviceInfo (device : Device)
  | chooseAction
  | deviceAdded (device : Device)
  | categoryEmpty (category : String)
  | categoryHeader (category : String) (n : Nat)
  | chooseOtherCategory
  | chooseCategory
  | noDevices
  | allHeader (n : Nat)
  | backToCategories
  | noOwnListings
  | ownHeader (n : Nat)
  | ownDevice (device : Device)
  | backToMenu
  | mainMenu
  | deviceNotFound
  | notOwner
  | removed
  | removeFailed
  deriving DecidableEq

/-- What one handler invocation does: the state it leaves, the `BotState` methods it
called (oldest first), and the messages it sent (oldest first). -/
structure Outcome where
  state : BotState
  calls : List Op
  replies : List Reply

/-- `handleStart` (lines 546-560). -/
def handleStart (fault : Option StoreError) (message : Message) (state : BotState) : Outcome :=
  let userID := message.FromID
  let user : User :=
    { ID := userID, FirstName := message.FirstName, LastName := message.LastName,
      Username := message.UserName, Contact := "" }
  ⟨state.SaveUser fault user, [Op.SaveUser fault user], [Reply.welcome message.FirstName]⟩

/-- `handleHelp` (lines 562-576). -/
def handleHelp (state : BotState) : Outcome :=
  ⟨state, [], [Reply.help]⟩

/-- `handleMessage` (lines 305-378). `fault` is the outcome of the one store call the
handler may make. -/
def handleMessage (lib : Library) (fault : Option StoreError) (message : Message)
    (state : BotState) : Outcome :=
  let userID := message.FromID
  let userState := state.GetUserState userID
  let state0 := userState.2
  if message.IsCommand then
    if message.Command = "start" then
      let r := handleStart fault message state0
      ⟨r.state, Op.GetUserState userID :: r.calls, r.replies⟩
    else if message.Command = "help" then
      let r := handleHelp state0
      ⟨r.state, Op.GetUserState userID :: r.calls, r.replies⟩
    else ⟨state0, [Op.GetUserState userID], [Reply.unknownCommand]⟩
  else if userState.1 = "waiting_device_name" then
    let s1 := state0.SetWaitingInput userID "name" message.Text
    let s2 := s1.SetUserState userID "waiting_device_description"
    ⟨s2, [Op.GetUserState userID, Op.SetWaitingInput userID "name" message.Text,
      Op.SetUserState userID "waiting_device_description"], [Reply.askDescription]⟩
  else if userState.1 = "waiting_device_description" then
    let s1 := state0.SetWaitingInput userID "description" message.Text
    let s2 := s1.SetUserState userID "waiting_device_price"
    ⟨s2, [Op.GetUserState userID, Op.SetWaitingInput userID "description" message.Text,
      Op.SetUserState userID "waiting_device_price"], [Reply.askPrice]⟩
  else if userState.1 = "waiting_device_price" then
    let s1 := state0.SetWaitingInput userID "price" message.Text
    let s2 := s1.SetUserState userID "waiting_device_contact"
    ⟨s2, [Op.GetUserState userID, Op.SetWaitingInput userID "price" message.Text,
      Op.SetUserState userID "waiting_device_contact"], [Reply.askContact]⟩
  else if userState.1 = "waiting_device_contact" then
    let s1 := state0.SetWaitingInput userID "contact" message.Text
    let s2 := s1.SetUserState userID "waiting_device_category"
    ⟨s2, [Op.GetUserState userID, Op.SetWaitingInput userID "contact" message.Text,
      Op.SetUserState userID "waiting_device_category"], [Reply.askCategory]⟩
  else if userState.1 = "waiting_search_query" then
    let query := message.Text
    let found := state0.SearchDevices lib.like lib.caseTable fault query
    let s2 := found.2.SetUserState userID ""
    ⟨s2, [Op.GetUserState userID, Op.SearchDevices fault query, Op.SetUserState userID ""],
      if found.1.length = 0 then [Reply.nothingFound]
      else Reply.foundCount found.1.length :: found.1.map Reply.deviceInfo⟩
  else ⟨state0, [Op.GetUserState userID], [Reply.chooseAction]⟩

/-- `handleCallbackQuery` (lines 380-544). `fault1` and `fault2` are the outcomes of the
driver calls the handler may make, in the order it makes them. -/
def handleCallbackQuery (lib : Library) (fault1 fault2 : Option StoreError)
    (callbackQuery : CallbackQuery) (state : BotState) : Outcome :=
  let userID := callbackQuery.FromID
  let data := callbackQuery.Data
  if HasPrefix data "cat_" then
    let categoryCode := TrimPrefix data "cat_"
    let userState := state.GetUserState userID
    if userState.1 = "waiting_device_category" then
      let input := userState.2.GetWaitingInput userID
      let price := (lib.scanFloat ((input.1 "price").getD "")).getD (Float64.finite 0)
      let device : Device :=
        { ID := 0
          Name := (input.1 "name").getD ""
          Description := (input.1 "description").getD ""
          Price := price
          SellerID := userID
          SellerName := callbackQuery.FirstName
          Contact := (input.1 "contact").getD ""
          Category := categoryCode }
      let s1 := input.2.AddDevice fault1 fault2 device
      let s2 := s1.ClearWaitingInput userID
      let s3 := s2.SetUserState userID ""
      ⟨s3, [Op.GetUserState userID, Op.GetWaitingInput userID,
        Op.AddDevice fault1 fault2 device, Op.ClearWaitingInput userID,
        Op.SetUserState userID ""], [Reply.deviceAdded device]⟩
    else
      let devices := userState.2.GetDevicesByCategory fault1 categoryCode
      ⟨devices.2, [Op.GetUserState userID, Op.GetDevicesByCategory fault1 categoryCode],
        if devices.1.length = 0 then [Reply.categoryEmpty categoryCode]
        else Reply.categoryHeader categoryCode devices.1.length ::
          (devices.1.map Reply.deviceInfo ++ [Reply.chooseOtherCategory])⟩
  else if data = "browse_devices" then ⟨state, [], [Reply.chooseCategory]⟩
  else if data = "browse_all_devices" then
    let devices := state.GetDevices
    ⟨devices.2, [Op.GetDevices],
      if devices.1.length = 0 then [Reply.noDevices]
      else Reply.allHeader devices.1.length ::
        (devices.1.map Reply.deviceInfo ++ [Reply.backToCategories])⟩
  else if data = "sell_device" then
    let s1 := state.SetUserState userID "waiting_device_name"
    let s2 := s1.ClearWaitingInput userID
    ⟨s2, [Op.SetUserState userID "waiting_device_name", Op.ClearWaitingInput userID],
      [Reply.askName]⟩
  else if data = "my_devices" then
    let userDevices := state.GetUserDevices fault1 userID
    ⟨userDevices.2, [Op.GetUserDevices fault1 userID],
      if userDevices.1.length = 0 then [Reply.noOwnListings]
      else Reply.ownHeader userDevices.1.length ::
        (userDevices.1.map Reply.ownDevice ++ [Reply.backToMenu])⟩
  else if data = "search_devices" then
    ⟨state.SetUserState userID "waiting_search_query",
      [Op.SetUserState userID "waiting_search_query"], [Reply.askQuery]⟩
  else if data = "help" then handleHelp state
  else if data = "back_to_main" then ⟨state, [], [Reply.mainMenu]⟩
  else if data = "back_to_categories" then ⟨state, [], [Reply.chooseCategory]⟩
  else if HasPrefix data "remove_device_" then
    let idStr := TrimPrefix data "remove_device_"
    let deviceID := (lib.scanInt idStr).getD 0
    let found := state.FindDeviceByID fault1 deviceID
    if found.1.2 = false then
      ⟨found.2, [Op.FindDeviceByID fault1 deviceID], [Reply.deviceNotFound]⟩
    else if found.1.1.SellerID ≠ userID then
      ⟨found.2, [Op.FindDeviceByID fault1 deviceID], [Reply.notOwner]⟩
    else
      let removed := found.2.RemoveDevice fault2 deviceID
      ⟨removed.2, [Op.FindDeviceByID fault1 deviceID, Op.RemoveDevice fault2 deviceID],
        [if removed.1 then Reply.removed else Reply.removeFailed]⟩
  else ⟨state, [], []⟩

/-- Is the call an `AddDevice`? -/
def Op.isAddDevice : Op → Bool
  | .AddDevice _ _ _ => true
  | _ => false

/-- Is the call a `RemoveDevice`? -/
def Op.isRemoveDevice : Op → Bool
  | .RemoveDevice _ _ => true
  | _ => false

/-- The free-text steps of the sell flow as the specification lists them: for each step
the draft key it fills and the step that follows it. -/
def sellFlow : List (String × String × String) :=
  [("waiting_device_name", "name", "waiting_device_description"),
   ("waiting_device_description", "description", "waiting_device_price"),
   ("waiting_device_price", "price", "waiting_device_contact"),
   ("waiting_device_contact", "contact", "waiting_device_category")]

/-- Scanner of the worked examples: a non-empty string of ASCII digits is read as a
decimal number, everything else is rejected. -/
def scanDigits (s : String) : Option Nat :=
  if s.data ≠ [] ∧ s.data.all Char.isDigit = true then
    some (s.data.foldl (fun n c => 10 * n + (c.toNat - 48)) 0)
  else none

/-- Library of the worked examples. -/
def exampleLibrary : Library :=
  { like := likeNothing
    caseTable := id
    scanFloat := fun s => (scanDigits s).map (fun n => Float64.finite n)
    scanInt := fun s => (scanDigits s).map (fun n => (n : Int)) }

/-- The listing assembled at category selection, as the specification describes it: name,
description and contact are the draft's fields, the price is the scanned price field (0
when the scan fails), the seller is the user who pressed the button and the category is
the selected code. -/
def draftListing (lib : Library) (callbackQuery : CallbackQuery) (category : String)
    (draft : String → Option String) : Device :=
  { ID := 0
    Name := (draft "name").getD ""
    Description := (draft "description").getD ""
    Price :=
      match lib.scanFloat ((draft "price").getD "") with
      | some price => price
      | none => Float64.finite 0
    SellerID := callbackQuery.FromID
    SellerName := callbackQuery.FirstName
    Contact := (draft "contact").getD ""
    Category := category }

/-- A free-text message of the worked examples. -/
def textFrom (userID : Int) (text : String) : Message :=
  ⟨userID, "Ann", "Lee", "ann", 100, text, false, ""⟩

/-- A button press of the worked examples. -/
def pressed (userID : Int) (data : String) : CallbackQuery :=
  ⟨userID, "Ann", 100, data⟩

/-- The state of the end-to-end scenario before the category is chosen: on an empty
store user 7 pressed "sell" and answered Pixel 8, like new, 35000 and @a. -/
def draftedState : BotState :=
  let s0 := NewBotState Database.empty none none none
  let s1 := (handleCallbackQuery exampleLibrary none none (pressed 7 "sell_device") s0).state
  let s2 := (handleMessage exampleLibrary none (textFrom 7 "Pixel 8") s1).state
  let s3 := (handleMessage exampleLibrary none (textFrom 7 "like new") s2).state
  let s4 := (handleMessage exampleLibrary none (textFrom 7 "35000") s3).state
  (handleMessage exampleLibrary none (textFrom 7 "@a") s4).state

/-! ## Runs of the store-less service and the memory of the DB-backed one -/

/-- A call of `AddDevice` or `RemoveDevice` on the store-less `BotState`. -/
inductive NoDB.Call where
  | AddDevice (device : Device)
  | RemoveDevice (deviceID : Int)

/-- State of the store-less service after one call. -/
def NoDB.BotState.step (bs : NoDB.BotState) : NoDB.Call → NoDB.BotState
  | .AddDevice device => bs.AddDevice device
  | .RemoveDevice deviceID => (bs.RemoveDevice deviceID).2

/-- State of the store-less service after a sequence of calls, oldest first. -/
def NoDB.BotState.run (bs : NoDB.BotState) (calls : List NoDB.Call) : NoDB.BotState :=
  calls.foldl NoDB.BotState.step bs

/-- IDs given to new listings along a run of the store-less service, oldest first. -/
def NoDB.BotState.assigned : NoDB.BotState → List NoDB.Call → List Int
  | _, [] => []
  | bs, .AddDevice device :: calls =>
    bs.NextDeviceID :: NoDB.BotState.assigned (bs.AddDevice device) calls
  | bs, .RemoveDevice deviceID :: calls =>
    NoDB.BotState.assigned (bs.RemoveDevice deviceID).2 calls

/-- The in-memory part of the DB-backed state, read as a state of the store-less build. -/
def BotState.memory (bs : BotState) : NoDB.BotState :=
  { Devices := bs.Devices, Users := bs.Users, UserStates := bs.UserStates,
    WaitingInput := bs.WaitingInput, NextDeviceID := bs.NextDeviceID }

/-! ## Runs of the dialogue -/

/-- One inbound update, with the outcome of the driver calls its handler makes: a chat
message (`handleMessage`) or a button press (`handleCallbackQuery`). -/
inductive Event where
  | message (fault : Option StoreError) (message : Message)
  | callback (fault1 fault2 : Option StoreError) (callbackQuery : CallbackQuery)

/-- State after the handler of one update has run, as in the loop of `main`
(lines 296-302). -/
def BotState.handle (lib : Library) (bs : BotState) : Event → BotState
  | .message fault message => (handleMessage lib fault message bs).state
  | .callback fault1 fault2 callbackQuery =>
    (handleCallbackQuery lib fault1 fault2 callbackQuery bs).state

/-- State after a sequence of updates, oldest first. -/
def BotState.handleAll (lib : Library) (bs : BotState) (events : List Event) : BotState :=
  events.foldl (BotState.handle lib) bs

/-- The draft of the user holds the key. -/
def HasKey (bs : BotState) (userID : Int) (key : String) : Prop :=
  ∃ value, (bs.GetWaitingInput userID).1 key = some value

/-- The step of a user determines which draft fields have been entered: each free-text
step of the sell flow past the first finds the answers of all earlier steps in the
draft. -/
def DraftMatchesStep (bs : BotState) (userID : Int) : Prop :=
  ((bs.GetUserState userID).1 = "waiting_device_description" → HasKey bs userID "name") ∧
  ((bs.GetUserState userID).1 = "waiting_device_price" →
    HasKey bs userID "name" ∧ HasKey bs userID "description") ∧
  ((bs.GetUserState userID).1 = "waiting_device_contact" →
    HasKey bs userID "name" ∧ HasKey bs userID "description" ∧ HasKey bs userID "price") ∧
  ((bs.GetUserState userID).1 = "waiting_device_category" →
    HasKey bs userID "name" ∧ HasKey bs userID "description" ∧ HasKey bs userID "price" ∧
      HasKey bs userID "contact")

/-- The updates of the end-to-end scenario up to the category question: user 7 presses
"sell" and answers Pixel 8, like new, 35000 and @a. -/
def draftEvents : List Event :=
  [Event.callback none none (pressed 7 "sell_device"),
   Event.message none (textFrom 7 "Pixel 8"),
   Event.message none (textFrom 7 "like new"),
   Event.message none (textFrom 7 "35000"),
   Event.message none (textFrom 7 "@a")]

/-! ## Lemmas on machine integers and on `maxID` -/

theorem wrapInt_of_range (x : Int) (hlo : minInt ≤ x) (hhi : x ≤ maxInt) : wrapInt x = x := by
  unfold minInt at hlo
  unfold maxInt at hhi
  unfold wrapInt
  omega

theorem wrapInt_range (x : Int) : minInt ≤ wrapInt x ∧ wrapInt x ≤ maxInt := by
  unfold minInt maxInt wrapInt
  omega

theorem maxID_ge (ds : List Device) (d : Device) (hd : d ∈ ds) :
    ∃ m, maxID ds = some m ∧ d.ID ≤ m := by
  induction ds with
  | nil => cases hd
  | cons x xs ih =>
    rcases List.mem_cons.mp hd with rfl | hmem
    · cases hx : maxID xs with
      | none => exact ⟨d.ID, by simp [maxID, hx], le_refl _⟩
      | some m => exact ⟨max d.ID m, by simp [maxID, hx], le_max_left _ _⟩
    · obtain ⟨m, hm, hle⟩ := ih hmem
      exact ⟨max x.ID m, by simp [maxID, hm], le_trans hle (le_max_right _ _)⟩

theorem maxID_mem (ds : List Device) (m : Int) (h : maxID ds = some m) :
    ∃ d ∈ ds, d.ID = m := by
  induction ds generalizing m with
  | nil => simp [maxID] at h
  | cons x xs ih =>
    cases hx : maxID xs with
    | none =>
      simp [maxID, hx] at h
      exact ⟨x, List.mem_cons_self _ _, h⟩
    | some k =>
      simp [maxID, hx] at h
      obtain ⟨d, hd, hk⟩ := ih k hx
      rcases le_total x.ID k with hle | hle
      · exact ⟨d, List.mem_cons_of_mem _ hd, by rw [hk, ← h, max_eq_right hle]⟩
      · exact ⟨x, List.mem_cons_self _ _, by rw [← h, max_eq_left hle]⟩

theorem maxID_eq_none (ds : List Device) : maxID ds = none ↔ ds = [] := by
  cases ds with
  | nil => simp [maxID]
  | cons x xs => cases hx : maxID xs <;> simp [maxID, hx]

/-! ## Lemmas on the tentative counter along a run -/

theorem step_counter (like : String → String → Bool) (caseTable : Char → Char)
    (bs : BotState) (op : Op) :
    (∀ i, bs.assigns op = some (i, true) →
        i = bs.NextDeviceID ∧
        (bs.step like caseTable op).NextDeviceID = wrapInt (bs.NextDeviceID + 1)) ∧
    ((∀ i, bs.assigns op ≠ some (i, true)) →
        (bs.step like caseTable op).NextDeviceID = bs.NextDeviceID) := by
  cases op with
  | AddDevice execFault idFault device =>
    cases h : (bs.db.SaveDevice execFault idFault device).1 with
    | error err =>
      constructor
      · intro i hi
        simp [BotState.assigns, h] at hi
        simp [BotState.step, BotState.AddDevice, h, hi]
      · intro hne
        exact absurd (by simp [BotState.assigns, h]) (hne bs.NextDeviceID)
    | ok id =>
      constructor
      · intro i hi
        simp [BotState.assigns, h] at hi
      · intro _
        simp [BotState.step, BotState.AddDevice, h]
  | RemoveDevice fault deviceID =>
    refine ⟨fun i hi => by simp [BotState.assigns] at hi, fun _ => ?_⟩
    simp only [BotState.step, BotState.RemoveDevice]
    split <;> split <;> rfl
  | GetDevicesByCategory fault category =>
    refine ⟨fun i hi => by simp [BotState.assigns] at hi, fun _ => ?_⟩
    simp only [BotState.step, BotState.GetDevicesByCategory]
    split <;> rfl
  | GetUserDevices fault userID =>
    refine ⟨fun i hi => by simp [BotState.assigns] at hi, fun _ => ?_⟩
    simp only [BotState.step, BotState.GetUserDevices]
    split <;> rfl
  | FindDeviceByID fault deviceID =>
    refine ⟨fun i hi => by simp [BotState.assigns] at hi, fun _ => ?_⟩
    simp only [BotState.step, BotState.FindDeviceByID]
    split <;> rfl
  | SearchDevices fault query =>
    refine ⟨fun i hi => by simp [BotState.assigns] at hi, fun _ => ?_⟩
    simp only [BotState.step, BotState.SearchDevices]
    split <;> rfl
  | GetWaitingInput userID =>
    refine ⟨fun i hi => by simp [BotState.assigns] at hi, fun _ => ?_⟩
    simp only [BotState.step, BotState.GetWaitingInput]
    split <;> rfl
  | GetDevices => exact ⟨fun i hi => by simp [BotState.assigns] at hi, fun _ => rfl⟩
  | SaveUser fault user => exact ⟨fun i hi => by simp [BotState.assigns] at hi, fun _ => rfl⟩
  | SetUserState userID state =>
    exact ⟨fun i hi => by simp [BotState.assigns] at hi, fun _ => rfl⟩
  | GetUserState userID => exact ⟨fun i hi => by simp [BotState.assigns] at hi, fun _ => rfl⟩
  | SetWaitingInput userID key value =>
    exact ⟨fun i hi => by simp [BotState.assigns] at hi, fun _ => rfl⟩
  | ClearWaitingInput userID =>
    exact ⟨fun i hi => by simp [BotState.assigns] at hi, fun _ => rfl⟩

theorem run_cons (like : String → String → Bool) (caseTable : Char → Char)
    (bs : BotState) (op : Op) (ops : List Op) :
    bs.run like caseTable (op :: ops) = (bs.step like caseTable op).run like caseTable ops := rfl

/-- While the counter stays inside the `int` range it never decreases along a run, and
every tentative ID handed out lies between its initial and its final value. -/
theorem run_counter (like : String → String → Bool) (caseTable : Char → Char)
    (ops : List Op) :
    ∀ bs : BotState, minInt ≤ bs.NextDeviceID → bs.NextDeviceID + ops.length ≤ maxInt →
      bs.NextDeviceID ≤ (bs.run like caseTable ops).NextDeviceID ∧
      (bs.run like caseTable ops).NextDeviceID ≤ bs.NextDeviceID + ops.length ∧
      ∀ a ∈ bs.assigned like caseTable ops, a.2 = true →
        bs.NextDeviceID ≤ a.1 ∧ a.1 < (bs.run like caseTable ops).NextDeviceID := by
  induction ops with
  | nil =>
    intro bs _ _
    simp [BotState.run, BotState.assigned]
  | cons op ops ih =>
    intro bs hlo hhi
    simp only [List.length_cons, Nat.cast_add, Nat.cast_one] at hhi
    rw [run_cons]
    obtain ⟨htent, hother⟩ := step_counter like caseTable bs op
    by_cases hop : ∃ i, bs.assigns op = some (i, true)
    · obtain ⟨i, hi⟩ := hop
      obtain ⟨hieq, hstep⟩ := htent i hi
      have hw : wrapInt (bs.NextDeviceID + 1) = bs.NextDeviceID + 1 :=
        wrapInt_of_range _ (by omega) (by omega)
      rw [hw] at hstep
      obtain ⟨h1, h2, h3⟩ := ih (bs.step like caseTable op) (by omega) (by omega)
      refine ⟨by omega, by simp only [List.length_cons, Nat.cast_add, Nat.cast_one]; omega, ?_⟩
      intro a ha hat
      simp only [BotState.assigned, hi] at ha
      rcases List.mem_cons.mp ha with rfl | ha
      · simp only
        omega
      · obtain ⟨h4, h5⟩ := h3 a ha hat
        exact ⟨by omega, h5⟩
    · have hne : ∀ i, bs.assigns op ≠ some (i, true) := fun i hi => hop ⟨i, hi⟩
      have hstep := hother hne
      obtain ⟨h1, h2, h3⟩ := ih (bs.step like caseTable op) (by omega) (by omega)
      refine ⟨by omega, by simp only [List.length_cons, Nat.cast_add, Nat.cast_one]; omega, ?_⟩
      intro a ha hat
      have ha2 : a ∈ BotState.assigned like caseTable (bs.step like caseTable op) ops := by
        cases hasg : bs.assigns op with
        | none => simpa [BotState.assigned, hasg] using ha
        | some b =>
          simp only [BotState.assigned, hasg] at ha
          rcases List.mem_cons.mp ha with rfl | ha
          · exact absurd (by rw [hasg, ← hat]) (hne a.1)
          · exact ha
      obtain ⟨h4, h5⟩ := h3 a ha2 hat
      exact ⟨by omega, h5⟩

/-! ## Lemmas on startup -/

theorem NewBotState_counter (db : Database) (usersFault devicesFault nextFault : Option StoreError) :
    (NewBotState db usersFault devicesFault nextFault).NextDeviceID =
      match nextFault with
      | some _ => 1
      | none =>
        match maxID db.devices with
        | some m => wrapInt (m + 1)
        | none => 1 := by
  cases usersFault <;> cases devicesFault <;> cases nextFault <;>
    simp [NewBotState, BotState.loadFromDB, Database.GetUsers, Database.GetDevices,
      Database.GetNextDeviceID] <;>
    cases maxID db.devices <;> rfl

theorem NewBotState_devices (db : Database) (usersFault devicesFault nextFault : Option StoreError) :
    (NewBotState db usersFault devicesFault nextFault).Devices =
      match devicesFault with
      | some _ => []
      | none => db.devices := by
  cases usersFault <;> cases devicesFault <;> cases nextFault <;>
    simp [NewBotState, BotState.loadFromDB, Database.GetUsers, Database.GetDevices,
      Database.GetNextDeviceID] <;>
    cases maxID db.devices <;> rfl

theorem NewBotState_counter_range (db : Database)
    (usersFault devicesFault nextFault : Option StoreError) :
    minInt ≤ (NewBotState db usersFault devicesFault nextFault).NextDeviceID := by
  rw [NewBotState_counter]
  cases nextFault with
  | some err => simp [minInt]
  | none =>
    cases maxID db.devices with
    | none => simp [minInt]
    | some m => exact (wrapInt_range _).1

/-! ## C1: IDs handed out when the store insert fails -/

/-- C1, evaluated on the code: on an empty store the first insert succeeds and the store
returns ID 1; `AddDevice` leaves `NextDeviceID` at 1, so the next `AddDevice`, whose
insert fails, hands out the tentative ID 1 again. The ID assigned on the failing insert
is not greater than the ID assigned before it, and the cache ends with two listings
that both carry ID 1. -/
theorem C1_fallback_id_collides_with_store_id :
    ¬ FallbackIDsFresh likeNothing id (NewBotState Database.empty none none none)
        [Op.AddDevice none none galaxyNote, Op.AddDevice (some storeDown) none galaxyNote] ∧
    (NewBotState Database.empty none none none).assigned likeNothing id
        [Op.AddDevice none none galaxyNote, Op.AddDevice (some storeDown) none galaxyNote]
      = [(1, false), (1, true)] ∧
    (((NewBotState Database.empty none none none).run likeNothing id
        [Op.AddDevice none none galaxyNote,
          Op.AddDevice (some storeDown) none galaxyNote]).Devices.map (·.ID)) = [1, 1] := by
  refine ⟨?_, by decide, by decide⟩
  intro h
  have h1 := (h [Op.AddDevice none none galaxyNote]
    (Op.AddDevice (some storeDown) none galaxyNote) [] 1 rfl (by decide)).1 (1, false)
    (by decide)
  exact absurd h1 (by decide)

/-- Tentative IDs among themselves: in a run started by `NewBotState` during which the
counter stays inside the `int` range, the ID that `AddDevice` assigns when the store
insert fails is strictly greater than every tentative ID assigned earlier in the run,
and, when the startup query for the next ID succeeded on a store whose IDs lie below the
largest `int`, strictly greater than every listing ID loaded from the store at startup.
Nothing of the kind holds for the IDs the store returns during the run. -/
theorem tentative_ids_strictly_increase (like : String → String → Bool)
    (caseTable : Char → Char) (db : Database)
    (usersFault devicesFault nextFault : Option StoreError)
    (pre : List Op) (op : Op) (i : Int)
    (hrange : (NewBotState db usersFault devicesFault nextFault).NextDeviceID + pre.length
      ≤ maxInt)
    (hfail : ((NewBotState db usersFault devicesFault nextFault).run like caseTable pre).assigns op
      = some (i, true)) :
    (∀ a ∈ (NewBotState db usersFault devicesFault nextFault).assigned like caseTable pre,
        a.2 = true → a.1 < i) ∧
    (nextFault = none → (∀ d ∈ db.devices, minInt ≤ d.ID ∧ d.ID < maxInt) →
      ∀ d ∈ (NewBotState db usersFault devicesFault nextFault).Devices, d.ID < i) := by
  have hlo := NewBotState_counter_range db usersFault devicesFault nextFault
  obtain ⟨hmono, _, htent⟩ := run_counter like caseTable pre _ hlo hrange
  have hi : i = ((NewBotState db usersFault devicesFault nextFault).run like caseTable
      pre).NextDeviceID :=
    ((step_counter like caseTable _ op).1 i hfail).1
  refine ⟨fun a ha hat => hi ▸ (htent a ha hat).2, ?_⟩
  intro hnext hids d hd
  subst hnext
  have hdb : d ∈ db.devices := by
    rw [NewBotState_devices] at hd
    cases devicesFault with
    | none => exact hd
    | some err => cases hd
  obtain ⟨m, hm, hle⟩ := maxID_ge db.devices d hdb
  obtain ⟨x, hx, hxm⟩ := maxID_mem db.devices m hm
  have hxr := hids x hx
  have hseed : (NewBotState db usersFault devicesFault none).NextDeviceID = m + 1 := by
    rw [NewBotState_counter]
    simp only [hm]
    exact wrapInt_of_range _ (by have := hxr.1; unfold minInt at *; omega) (by have := hxr.2; unfold maxInt at *; omega)
  omega

/-- Tentative IDs on a run: the store holds a listing with ID 5, so the counter starts at
6; two failing inserts hand out 6 and then 7. -/
theorem tentative_ids_strictly_increase_example :
    (∀ a ∈ (NewBotState oneListingStore none none none).assigned likeNothing id
          [Op.AddDevice (some storeDown) none galaxyNote],
        a.2 = true → a.1 < 7) ∧
    ((none : Option StoreError) = none →
      (∀ d ∈ oneListingStore.devices, minInt ≤ d.ID ∧ d.ID < maxInt) →
      ∀ d ∈ (NewBotState oneListingStore none none none).Devices, d.ID < 7) :=
  tentative_ids_strictly_increase likeNothing id oneListingStore none none none
    [Op.AddDevice (some storeDown) none galaxyNote]
    (Op.AddDevice (some storeDown) none galaxyNote) 7 (by decide) (by decide)

/-! ## C2: `GetDevices` -/

/-- C2, evaluated on the code: `GetDevices` returns the cache in every state and sends
no statement to the store. After a startup whose listing load failed, the cache is
empty while the store, whose list query now succeeds, holds the listing with ID 5:
`GetDevices` returns the empty cache, not the sequence the store holds. -/
theorem C2_GetDevices_returns_cache :
    (∀ bs : BotState, bs.GetDevices.1 = bs.Devices ∧ bs.GetDevices.2.db.calls = bs.db.calls) ∧
    ((NewBotState oneListingStore none (some storeDown) none).db.GetDevices none).1
      = Except.ok [{ galaxyNote with ID := 5 }] ∧
    (NewBotState oneListingStore none (some storeDown) none).GetDevices.1 = [] :=
  ⟨fun _ => ⟨rfl, rfl⟩, rfl, rfl⟩

/-! ## C3 and C4: `AddDevice` -/

/-- C3: when the store insert succeeds and returns the ID `i`, `AddDevice` appends the
listing with its ID set to `i` at the end of the cache; the earlier entries stay as they
were, in the same order. -/
theorem C3_AddDevice_success_appends (bs : BotState) (execFault idFault : Option StoreError)
    (device : Device) (i : Int)
    (hok : (bs.db.SaveDevice execFault idFault device).1 = Except.ok i) :
    (bs.AddDevice execFault idFault device).Devices = bs.Devices ++ [{ device with ID := i }] := by
  simp [BotState.AddDevice, hok]

/-- C3 on a run: the store holds ID 5, the insert returns 6 and the cache grows by the
listing with ID 6. -/
theorem C3_AddDevice_success_appends_witness :
    ((NewBotState oneListingStore none none none).AddDevice none none galaxyNote).Devices
      = [{ galaxyNote with ID := 5 }] ++ [{ galaxyNote with ID := 6 }] :=
  C3_AddDevice_success_appends (NewBotState oneListingStore none none none) none none
    galaxyNote 6 rfl

theorem maxID_of_greatest (ds : List Device) (m : Int) (hmem : ∃ x ∈ ds, x.ID = m)
    (hmax : ∀ x ∈ ds, x.ID ≤ m) : maxID ds = some m := by
  obtain ⟨x, hx, hxm⟩ := hmem
  obtain ⟨k, hk, hle⟩ := maxID_ge ds x hx
  obtain ⟨y, hy, hyk⟩ := maxID_mem ds k hk
  have := hmax y hy
  rw [hk]
  congr 1
  omega

/-- C4: when the store insert fails, `AddDevice` gives the listing the current value of
`NextDeviceID`, appends it at the end of the cache, advances the counter with Go's `++`
(by exactly one while the counter is below the largest `int`), and sends exactly one
insert statement to the store. At startup the counter is 1 when the next-ID query fails
or the store holds no listing, and the largest stored ID plus one otherwise. -/
theorem C4_AddDevice_failure_uses_counter (bs : BotState)
    (execFault idFault : Option StoreError) (device : Device) (err : StoreError)
    (hfail : (bs.db.SaveDevice execFault idFault device).1 = Except.error err)
    (db : Database) (usersFault devicesFault : Option StoreError) :
    (bs.AddDevice execFault idFault device).Devices
        = bs.Devices ++ [{ device with ID := bs.NextDeviceID }] ∧
    (bs.AddDevice execFault idFault device).NextDeviceID = wrapInt (bs.NextDeviceID + 1) ∧
    (minInt ≤ bs.NextDeviceID → bs.NextDeviceID < maxInt →
      (bs.AddDevice execFault idFault device).NextDeviceID = bs.NextDeviceID + 1) ∧
    (bs.AddDevice execFault idFault device).db.calls
        = bs.db.calls ++ [StoreCall.insertDevice device] ∧
    (∀ e : StoreError, (NewBotState db usersFault devicesFault (some e)).NextDeviceID = 1) ∧
    (db.devices = [] → (NewBotState db usersFault devicesFault none).NextDeviceID = 1) ∧
    (∀ m : Int, (∃ x ∈ db.devices, x.ID = m) → (∀ x ∈ db.devices, x.ID ≤ m) →
      minInt ≤ m → m < maxInt →
      (NewBotState db usersFault devicesFault none).NextDeviceID = m + 1) := by
  have hcalls : (bs.db.SaveDevice execFault idFault device).2.calls
      = bs.db.calls ++ [StoreCall.insertDevice device] := by
    unfold Database.SaveDevice
    cases execFault <;> cases idFault <;> simp <;> split <;> rfl
  refine ⟨by simp [BotState.AddDevice, hfail], by simp [BotState.AddDevice, hfail], ?_, ?_,
    ?_, ?_, ?_⟩
  · intro hlo hhi
    simp only [BotState.AddDevice, hfail]
    exact wrapInt_of_range _ (by omega) (by unfold maxInt at *; omega)
  · simp only [BotState.AddDevice, hfail]
    exact hcalls
  · intro e
    rw [NewBotState_counter]
  · intro hempty
    rw [NewBotState_counter, hempty]
    rfl
  · intro m hmem hmax hlo hhi
    rw [NewBotState_counter]
    simp only [maxID_of_greatest db.devices m hmem hmax]
    exact wrapInt_of_range _ (by omega) (by unfold maxInt at *; omega)

/-- C4 on a run: the store holds ID 5, so the counter starts at 6; the failing insert
gives the listing ID 6, moves the counter to 7 and sends one insert statement. -/
theorem C4_AddDevice_failure_uses_counter_witness :
    ((NewBotState oneListingStore none none none).db.SaveDevice (some storeDown) none
        galaxyNote).1 = Except.error storeDown ∧
    ((NewBotState oneListingStore none none none).AddDevice (some storeDown) none
        galaxyNote).Devices = [{ galaxyNote with ID := 5 }, { galaxyNote with ID := 6 }] ∧
    ((NewBotState oneListingStore none none none).AddDevice (some storeDown) none
        galaxyNote).NextDeviceID = 7 ∧
    (NewBotState oneListingStore none none none).NextDeviceID = 5 + 1 :=
  have h := C4_AddDevice_failure_uses_counter (NewBotState oneListingStore none none none)
    (some storeDown) none galaxyNote storeDown rfl oneListingStore none none
  ⟨rfl, h.1, h.2.2.1 (by decide) (by decide),
    h.2.2.2.2.2.2 5 ⟨_, List.mem_singleton.mpr rfl, rfl⟩
      (by intro x hx; rw [List.mem_singleton.mp hx]) (by decide) (by decide)⟩

/-! ## Lemmas on the removal loop -/

theorem firstIndexOfID_eq_none (deviceID : Int) (l : List Device) :
    firstIndexOfID deviceID l = none ↔ ∀ x ∈ l, x.ID ≠ deviceID := by
  induction l with
  | nil => simp [firstIndexOfID]
  | cons d rest ih =>
    by_cases hd : d.ID = deviceID
    · simp [firstIndexOfID, hd]
    · simp [firstIndexOfID, hd, ih]

theorem firstIndexOfID_append (deviceID : Int) (pre : List Device) (d : Device)
    (post : List Device) (hd : d.ID = deviceID) (hpre : ∀ x ∈ pre, x.ID ≠ deviceID) :
    firstIndexOfID deviceID (pre ++ d :: post) = some pre.length := by
  induction pre with
  | nil => simp [firstIndexOfID, hd]
  | cons x xs ih =>
    have hx : x.ID ≠ deviceID := hpre x (List.mem_cons_self _ _)
    have hxs : ∀ y ∈ xs, y.ID ≠ deviceID := fun y hy => hpre y (List.mem_cons_of_mem _ hy)
    simp [firstIndexOfID, hx, ih hxs]

theorem cutAt_append (pre : List Device) (d : Device) (post : List Device) :
    cutAt pre.length (pre ++ d :: post) = pre ++ post := by
  simp [cutAt]

theorem exists_first_with_ID (deviceID : Int) (l : List Device)
    (h : ∃ x ∈ l, x.ID = deviceID) :
    ∃ pre d post, l = pre ++ d :: post ∧ d.ID = deviceID ∧ ∀ x ∈ pre, x.ID ≠ deviceID := by
  induction l with
  | nil =>
    obtain ⟨x, hx, _⟩ := h
    cases hx
  | cons y ys ih =>
    by_cases hy : y.ID = deviceID
    · exact ⟨[], y, ys, rfl, hy, fun x hx => by cases hx⟩
    · obtain ⟨x, hx, hxid⟩ := h
      rcases List.mem_cons.mp hx with rfl | hmem
      · exact absurd hxid hy
      · obtain ⟨pre, d, post, hl, hd, hpre⟩ := ih ⟨x, hmem, hxid⟩
        refine ⟨y :: pre, d, post, by rw [hl]; rfl, hd, ?_⟩
        intro z hz
        rcases List.mem_cons.mp hz with rfl | hz
        · exact hy
        · exact hpre z hz

/-- The cache left by the removal loop, in both builds and on both store outcomes. -/
theorem removal_cases (deviceID : Int) (l : List Device) :
    (firstIndexOfID deviceID l = none ∧ ∀ x ∈ l, x.ID ≠ deviceID) ∨
    ∃ pre d post, l = pre ++ d :: post ∧ d.ID = deviceID ∧ (∀ x ∈ pre, x.ID ≠ deviceID) ∧
      firstIndexOfID deviceID l = some pre.length ∧ cutAt pre.length l = pre ++ post := by
  by_cases h : ∃ x ∈ l, x.ID = deviceID
  · obtain ⟨pre, d, post, hl, hd, hpre⟩ := exists_first_with_ID deviceID l h
    refine Or.inr ⟨pre, d, post, hl, hd, hpre, ?_, ?_⟩
    · rw [hl]
      exact firstIndexOfID_append deviceID pre d post hd hpre
    · rw [hl]
      exact cutAt_append pre d post
  · refine Or.inl ⟨(firstIndexOfID_eq_none deviceID l).mpr ?_, ?_⟩ <;>
      exact fun x hx hid => h ⟨x, hx, hid⟩

theorem RemoveDevice_devices (bs : BotState) (fault : Option StoreError) (deviceID : Int) :
    (bs.RemoveDevice fault deviceID).2.Devices =
      match firstIndexOfID deviceID bs.Devices with
      | some i => cutAt i bs.Devices
      | none => bs.Devices := by
  cases fault <;> simp only [BotState.RemoveDevice, Database.RemoveDevice] <;>
    cases firstIndexOfID deviceID bs.Devices <;> rfl

theorem RemoveDevice_result (bs : BotState) (fault : Option StoreError) (deviceID : Int) :
    (bs.RemoveDevice fault deviceID).1 =
      match fault with
      | some _ => (firstIndexOfID deviceID bs.Devices).isSome
      | none => true := by
  cases fault <;> simp only [BotState.RemoveDevice, Database.RemoveDevice] <;>
    cases firstIndexOfID deviceID bs.Devices <;> rfl

theorem NoDB_RemoveDevice_devices (bs : NoDB.BotState) (deviceID : Int) :
    (bs.RemoveDevice deviceID).2.Devices =
      match firstIndexOfID deviceID bs.Devices with
      | some i => cutAt i bs.Devices
      | none => bs.Devices := by
  simp only [NoDB.BotState.RemoveDevice]
  cases firstIndexOfID deviceID bs.Devices <;> rfl

theorem NoDB_RemoveDevice_result (bs : NoDB.BotState) (deviceID : Int) :
    (bs.RemoveDevice deviceID).1 = (firstIndexOfID deviceID bs.Devices).isSome := by
  simp only [NoDB.BotState.RemoveDevice]
  cases firstIndexOfID deviceID bs.Devices <;> rfl

/-- The removal loop deletes the first entry with the given ID and nothing else. -/
theorem removal_spec (deviceID : Int) (l : List Device) :
    (match firstIndexOfID deviceID l with
      | some i => cutAt i l
      | none => l) = l.eraseP (fun x => decide (x.ID = deviceID)) ∧
    (∀ pre d post, l = pre ++ d :: post → d.ID = deviceID → (∀ x ∈ pre, x.ID ≠ deviceID) →
      (match firstIndexOfID deviceID l with
        | some i => cutAt i l
        | none => l) = pre ++ post) ∧
    ((∀ x ∈ l, x.ID ≠ deviceID) →
      (match firstIndexOfID deviceID l with
        | some i => cutAt i l
        | none => l) = l) := by
  have hsplit : ∀ pre d post, l = pre ++ d :: post → d.ID = deviceID →
      (∀ x ∈ pre, x.ID ≠ deviceID) →
      (match firstIndexOfID deviceID l with
        | some i => cutAt i l
        | none => l) = pre ++ post := by
    intro pre d post hl hd hpre
    rw [hl, firstIndexOfID_append deviceID pre d post hd hpre]
    exact cutAt_append pre d post
  have hnone : (∀ x ∈ l, x.ID ≠ deviceID) →
      (match firstIndexOfID deviceID l with
        | some i => cutAt i l
        | none => l) = l := by
    intro h
    rw [(firstIndexOfID_eq_none deviceID l).mpr h]
  refine ⟨?_, hsplit, hnone⟩
  rcases removal_cases deviceID l with ⟨_, hno⟩ | ⟨pre, d, post, hl, hd, hpre, _, _⟩
  · rw [hnone hno, List.eraseP_of_forall_not]
    intro a ha
    simpa using hno a ha
  · rw [hsplit pre d post hl hd hpre, hl, List.eraseP_append_right]
    · rw [List.eraseP_cons_of_pos]
      simpa using hd
    · intro b hb
      simpa using hpre b hb

/-! ## C5, C6 and C7: `RemoveDevice` -/

/-- C5: when the store delete fails, `RemoveDevice` returns true exactly when the cache
held an entry with that ID before the call. -/
theorem C5_RemoveDevice_degraded_result (bs : BotState) (fault : Option StoreError)
    (deviceID : Int) (err : StoreError)
    (hfail : (bs.db.RemoveDevice fault deviceID).1 = Except.error err) :
    (bs.RemoveDevice fault deviceID).1 = true ↔ ∃ d ∈ bs.Devices, d.ID = deviceID := by
  have hfault : ∃ e, fault = some e := by
    cases fault with
    | none => simp [Database.RemoveDevice] at hfail
    | some e => exact ⟨e, rfl⟩
  obtain ⟨e, rfl⟩ := hfault
  rw [RemoveDevice_result]
  simp only
  rcases removal_cases deviceID bs.Devices with ⟨hnone, hno⟩ | ⟨pre, d, post, hl, hd, _, hsome, _⟩
  · rw [hnone]
    simp only [Option.isSome_none, Bool.false_eq_true, false_iff, not_exists, not_and]
    exact fun x hx => hno x hx
  · rw [hsome]
    simp only [Option.isSome_some, true_iff]
    exact ⟨d, by rw [hl]; simp, hd⟩

/-- C5 on a run: with the store down, removing ID 1 from a cache that holds it reports
true. -/
theorem C5_RemoveDevice_degraded_result_witness :
    (collidingState.RemoveDevice (some storeDown) 1).1 = true ↔
      ∃ d ∈ collidingState.Devices, d.ID = 1 :=
  C5_RemoveDevice_degraded_result collidingState (some storeDown) 1 storeDown rfl

/-- C6: on either store outcome, and in the store-less build, the cache after
`RemoveDevice` is the cache before without its first entry carrying the ID; every other
entry, later entries with the same ID included, stays in place, and a cache without
such an entry is unchanged. -/
theorem C6_RemoveDevice_deletes_first_match (bs : BotState) (nbs : NoDB.BotState)
    (fault : Option StoreError) (deviceID : Int) :
    (bs.RemoveDevice fault deviceID).2.Devices
        = bs.Devices.eraseP (fun x => decide (x.ID = deviceID)) ∧
    (∀ pre d post, bs.Devices = pre ++ d :: post → d.ID = deviceID →
      (∀ x ∈ pre, x.ID ≠ deviceID) →
      (bs.RemoveDevice fault deviceID).2.Devices = pre ++ post) ∧
    ((∀ x ∈ bs.Devices, x.ID ≠ deviceID) →
      (bs.RemoveDevice fault deviceID).2.Devices = bs.Devices) ∧
    (nbs.RemoveDevice deviceID).2.Devices
        = nbs.Devices.eraseP (fun x => decide (x.ID = deviceID)) ∧
    (∀ pre d post, nbs.Devices = pre ++ d :: post → d.ID = deviceID →
      (∀ x ∈ pre, x.ID ≠ deviceID) →
      (nbs.RemoveDevice deviceID).2.Devices = pre ++ post) ∧
    ((∀ x ∈ nbs.Devices, x.ID ≠ deviceID) →
      (nbs.RemoveDevice deviceID).2.Devices = nbs.Devices) := by
  rw [RemoveDevice_devices, NoDB_RemoveDevice_devices]
  obtain ⟨h1, h2, h3⟩ := removal_spec deviceID bs.Devices
  obtain ⟨h4, h5, h6⟩ := removal_spec deviceID nbs.Devices
  exact ⟨h1, h2, h3, h4, h5, h6⟩

/-- C6 on a run: the cache holds two listings with ID 1; removing ID 1 while the store
delete succeeds deletes the first and keeps the second. In the store-less state holding
IDs 1 and 2, removing ID 2 keeps the listing with ID 1. -/
theorem C6_RemoveDevice_deletes_first_match_witness :
    (collidingState.RemoveDevice none 1).2.Devices
        = [] ++ [{ galaxyNote with ID := 1, Name := "Pixel 8" }] ∧
    (twoListings.RemoveDevice 2).2.Devices = [{ galaxyNote with ID := 1 }] ++ [] :=
  have h := C6_RemoveDevice_deletes_first_match collidingState twoListings none 1
  have k := C6_RemoveDevice_deletes_first_match collidingState twoListings none 2
  ⟨h.2.1 [] { galaxyNote with ID := 1 } [{ galaxyNote with ID := 1, Name := "Pixel 8" }]
      rfl rfl (by intro x hx; cases hx),
    k.2.2.2.2.1 [{ galaxyNote with ID := 1 }] { galaxyNote with ID := 2, Name := "Pixel 8" } []
      rfl rfl (by intro x hx; rw [List.mem_singleton.mp hx]; decide)⟩

/-- C7, as stated, fails: the store holds ID 5 and both deletes succeed; the second
`RemoveDevice(5)` in succession returns true, not false. -/
theorem C7_second_remove_reports_success :
    ¬ (((NewBotState oneListingStore none none none).RemoveDevice none 5).2.RemoveDevice
        none 5).1 = false := by
  decide

theorem countP_ID_le_one (deviceID : Int) (l : List Device) :
    firstIndexOfID deviceID
        (match firstIndexOfID deviceID l with
          | some i => cutAt i l
          | none => l) = none ↔
      l.countP (fun x => decide (x.ID = deviceID)) ≤ 1 := by
  rcases removal_cases deviceID l with ⟨hnone, hno⟩ | ⟨pre, d, post, hl, hd, hpre, hsome, hcut⟩
  · rw [hnone]
    simp only [hnone, true_iff]
    have : l.countP (fun x => decide (x.ID = deviceID)) = 0 :=
      List.countP_eq_zero.mpr (fun a ha => by simpa using hno a ha)
    omega
  · rw [hsome]
    simp only [hcut]
    have hpre0 : pre.countP (fun x => decide (x.ID = deviceID)) = 0 :=
      List.countP_eq_zero.mpr (fun a ha => by simpa using hpre a ha)
    have hcount : l.countP (fun x => decide (x.ID = deviceID))
        = post.countP (fun x => decide (x.ID = deviceID)) + 1 := by
      rw [hl, List.countP_append, hpre0, List.countP_cons]
      simp [hd]
    rw [hcount, firstIndexOfID_eq_none]
    constructor
    · intro h
      have : post.countP (fun x => decide (x.ID = deviceID)) = 0 :=
        List.countP_eq_zero.mpr
          (fun a ha => by simpa using h a (List.mem_append_right _ ha))
      omega
    · intro h x hx
      have hpost : post.countP (fun x => decide (x.ID = deviceID)) = 0 := by omega
      rcases List.mem_append.mp hx with hx | hx
      · exact hpre x hx
      · simpa using List.countP_eq_zero.mp hpost x hx

/-- C7, amended: `RemoveDevice` always returns a boolean. Called twice in succession
with the same ID, the second call returns false exactly when its store delete fails and
the cache held at most one entry with that ID before the first call; when its store
delete succeeds it returns true. In the store-less build the second call returns false
exactly when the cache held at most one entry with that ID. -/
theorem C7_second_remove_result (bs : BotState) (nbs : NoDB.BotState)
    (fault1 fault2 : Option StoreError) (deviceID : Int) :
    (((bs.RemoveDevice fault1 deviceID).2.RemoveDevice fault2 deviceID).1 = false ↔
      (∃ err, ((bs.RemoveDevice fault1 deviceID).2.db.RemoveDevice fault2 deviceID).1
          = Except.error err) ∧
        bs.Devices.countP (fun x => decide (x.ID = deviceID)) ≤ 1) ∧
    (((nbs.RemoveDevice deviceID).2.RemoveDevice deviceID).1 = false ↔
      nbs.Devices.countP (fun x => decide (x.ID = deviceID)) ≤ 1) := by
  constructor
  · rw [RemoveDevice_result, ← countP_ID_le_one, RemoveDevice_devices]
    cases fault2 with
    | none => simp [Database.RemoveDevice]
    | some e =>
      simp only [Database.RemoveDevice]
      cases firstIndexOfID deviceID
        (match firstIndexOfID deviceID bs.Devices with
          | some i => cutAt i bs.Devices
          | none => bs.Devices) <;> simp
  · rw [NoDB_RemoveDevice_result, ← countP_ID_le_one, NoDB_RemoveDevice_devices]
    cases firstIndexOfID deviceID
      (match firstIndexOfID deviceID nbs.Devices with
        | some i => cutAt i nbs.Devices
        | none => nbs.Devices) <;> simp

/-- C7, amended, on a run: with the store down the second removal of ID 5 reports not
found; in the store-less state holding IDs 1 and 2 the second removal of ID 2 does too. -/
theorem C7_second_remove_result_witness :
    (((NewBotState oneListingStore none none none).RemoveDevice (some storeDown) 5).2.RemoveDevice
        (some storeDown) 5).1 = false ∧
    ((twoListings.RemoveDevice 2).2.RemoveDevice 2).1 = false :=
  have h := C7_second_remove_result (NewBotState oneListingStore none none none) twoListings
    (some storeDown) (some storeDown) 5
  have k := C7_second_remove_result (NewBotState oneListingStore none none none) twoListings
    (some storeDown) (some storeDown) 2
  ⟨h.1.mpr ⟨⟨storeDown, rfl⟩, by decide⟩, k.2.mpr (by decide)⟩

/-! ## Lemmas on the filter loops -/

theorem appendLoop_eq_filter (p : Device → Prop) [DecidablePred p] (l init : List Device) :
    l.foldl (fun acc d => if p d then acc ++ [d] else acc) init
      = init ++ l.filter (fun d => decide (p d)) := by
  induction l generalizing init with
  | nil => simp
  | cons x xs ih =>
    by_cases hx : p x
    · simp [List.foldl_cons, hx, ih, List.filter_cons]
    · simp [List.foldl_cons, hx, ih, List.filter_cons]

theorem categoryLoop_eq_filter (category : String) (l : List Device) :
    categoryLoop category l = l.filter (fun d => decide (d.Category = category)) := by
  unfold categoryLoop
  rw [appendLoop_eq_filter (fun d => d.Category = category)]
  rfl

theorem userLoop_eq_filter (userID : Int) (l : List Device) :
    userLoop userID l = l.filter (fun d => decide (d.SellerID = userID)) := by
  unfold userLoop
  rw [appendLoop_eq_filter (fun d => d.SellerID = userID)]
  rfl

theorem containsChars_iff (s substr : List Char) :
    containsChars s substr = true ↔ substr <:+: s := by
  induction s with
  | nil => simp [containsChars, List.isEmpty_iff]
  | cons c rest ih =>
    rw [containsChars, Bool.or_eq_true, ih, List.infix_cons_iff, List.isPrefixOf_iff_prefix]

theorem searchLoop_eq_filter (caseTable : Char → Char) (query : String) (l : List Device) :
    searchLoop caseTable query l
      = l.filter (fun d => decide (ContainsFold caseTable d.Name query ∨
          ContainsFold caseTable d.Description query)) := by
  unfold searchLoop
  simp only
  rw [appendLoop_eq_filter (fun d =>
    (Contains (ToLower caseTable d.Name) (ToLower caseTable query) ||
      Contains (ToLower caseTable d.Description) (ToLower caseTable query)) = true)]
  rw [List.nil_append]
  apply List.filter_congr
  intro d _
  simp only [Contains, ContainsFold, Bool.or_eq_true, containsChars_iff]

/-! ## C8, C9 and C10: the filtered reads -/

/-- C8: when the store query succeeds, `GetDevicesByCategory`, `GetUserDevices` and
`SearchDevices` each return the sequence the store returned, and the cache, the
tentative counter and the session registry are left as they were. -/
theorem C8_store_result_returned_verbatim (bs : BotState) (like : String → String → Bool)
    (caseTable : Char → Char) (fault : Option StoreError) (category : String)
    (userID : Int) (query : String) :
    (∀ ds, (bs.db.GetDevicesByCategory fault category).1 = Except.ok ds →
      (bs.GetDevicesByCategory fault category).1 = ds ∧
        FrameKept bs (bs.GetDevicesByCategory fault category).2) ∧
    (∀ ds, (bs.db.GetDevicesByUser fault userID).1 = Except.ok ds →
      (bs.GetUserDevices fault userID).1 = ds ∧
        FrameKept bs (bs.GetUserDevices fault userID).2) ∧
    (∀ ds, (bs.db.SearchDevices like fault query).1 = Except.ok ds →
      (bs.SearchDevices like caseTable fault query).1 = ds ∧
        FrameKept bs (bs.SearchDevices like caseTable fault query).2) := by
  refine ⟨?_, ?_, ?_⟩
  · intro ds h
    simp [BotState.GetDevicesByCategory, h, FrameKept]
  · intro ds h
    simp [BotState.GetUserDevices, h, FrameKept]
  · intro ds h
    simp [BotState.SearchDevices, h, FrameKept]

/-- C8 on a run: the store holds the one listing, in category smartphone and sold by
user 7; both reads return it as the store does. -/
theorem C8_store_result_returned_verbatim_witness :
    (galaxyState.GetDevicesByCategory none "smartphone").1 = [{ galaxyNote with ID := 1 }] ∧
    (galaxyState.GetUserDevices none 7).1 = [{ galaxyNote with ID := 1 }] ∧
    FrameKept galaxyState (galaxyState.GetUserDevices none 7).2 :=
  have h := C8_store_result_returned_verbatim galaxyState likeNothing id none "smartphone" 7
    "galaxy"
  ⟨(h.1 _ rfl).1, (h.2.1 _ rfl).1, (h.2.1 _ rfl).2⟩

/-- C9: when the store query fails, `GetDevicesByCategory(c)` returns the cache entries
whose category is `c` and `GetUserDevices(u)` the cache entries whose seller is `u`, in
cache order; the result is a (possibly empty) sequence, never an error. -/
theorem C9_cache_filter_on_store_failure (bs : BotState) (fault : Option StoreError)
    (category : String) (userID : Int) :
    (∀ err, (bs.db.GetDevicesByCategory fault category).1 = Except.error err →
      (bs.GetDevicesByCategory fault category).1
        = bs.Devices.filter (fun d => decide (d.Category = category))) ∧
    (∀ err, (bs.db.GetDevicesByUser fault userID).1 = Except.error err →
      (bs.GetUserDevices fault userID).1
        = bs.Devices.filter (fun d => decide (d.SellerID = userID))) := by
  constructor
  · intro err h
    simp [BotState.GetDevicesByCategory, h, categoryLoop_eq_filter]
  · intro err h
    simp [BotState.GetUserDevices, h, userLoop_eq_filter]

/-- C9 on a run: with the store down, the cache of two listings in category smartphone
answers the category read, and the read by another seller is empty. -/
theorem C9_cache_filter_on_store_failure_witness :
    (collidingState.GetDevicesByCategory (some storeDown) "smartphone").1
        = collidingState.Devices ∧
    (collidingState.GetUserDevices (some storeDown) 8).1 = [] :=
  have h := C9_cache_filter_on_store_failure collidingState (some storeDown) "smartphone" 8
  ⟨(h.1 storeDown rfl).trans (by decide), (h.2 storeDown rfl).trans (by decide)⟩

/-- C10: on the cache path (the store search failing, or the store-less build)
`SearchDevices(q)` returns the cached listings, in cache order, whose name or
description contains `q` once both sides are lower-cased; a cached listing named
"Galaxy Note" is returned for the query "galaxy". -/
theorem C10_cache_search_case_insensitive (caseTable : Char → Char)
    (like : String → String → Bool) (bs : BotState) (nbs : NoDB.BotState)
    (fault : Option StoreError) (query : String) :
    (∀ err, (bs.db.SearchDevices like fault query).1 = Except.error err →
      (bs.SearchDevices like caseTable fault query).1
        = bs.Devices.filter (fun d => decide (ContainsFold caseTable d.Name query ∨
            ContainsFold caseTable d.Description query))) ∧
    (nbs.SearchDevices caseTable query).1
        = nbs.Devices.filter (fun d => decide (ContainsFold caseTable d.Name query ∨
            ContainsFold caseTable d.Description query)) ∧
    (∀ err, (bs.db.SearchDevices like fault "galaxy").1 = Except.error err →
      ∀ d ∈ bs.Devices, d.Name = "Galaxy Note" →
        d ∈ (bs.SearchDevices like caseTable fault "galaxy").1) ∧
    (∀ d ∈ nbs.Devices, d.Name = "Galaxy Note" →
        d ∈ (nbs.SearchDevices caseTable "galaxy").1) := by
  have hgalaxy : ContainsFold caseTable "Galaxy Note" "galaxy" :=
    (containsChars_iff _ _).mp rfl
  refine ⟨?_, ?_, ?_, ?_⟩
  · intro err h
    simp only [BotState.SearchDevices, h, searchLoop_eq_filter]
  · simp only [NoDB.BotState.SearchDevices, searchLoop_eq_filter]
  · intro err h d hd hname
    simp only [BotState.SearchDevices, h, searchLoop_eq_filter]
    refine List.mem_filter.mpr ⟨hd, ?_⟩
    rw [hname]
    exact decide_eq_true (Or.inl hgalaxy)
  · intro d hd hname
    simp only [NoDB.BotState.SearchDevices, searchLoop_eq_filter]
    refine List.mem_filter.mpr ⟨hd, ?_⟩
    rw [hname]
    exact decide_eq_true (Or.inl hgalaxy)

/-- C10 on a run: with the store down, the cached listing named "Galaxy Note" is found
by the query "galaxy", in the DB-backed and in the store-less build. -/
theorem C10_cache_search_case_insensitive_witness :
    { galaxyNote with ID := 1 } ∈ (galaxyState.SearchDevices likeNothing id (some storeDown)
        "galaxy").1 ∧
    { galaxyNote with ID := 1 } ∈ (twoListings.SearchDevices id "galaxy").1 :=
  have h := C10_cache_search_case_insensitive id likeNothing galaxyState twoListings
    (some storeDown) "galaxy"
  ⟨h.2.2.1 storeDown rfl _ (by decide) rfl, h.2.2.2 _ (by decide) rfl⟩

/-! ## C11: `SaveUser` -/

/-- C11, as stated, fails: with the store upsert failing, `SaveUser` still writes the
user into the in-memory `Users` map, so the map after the call differs from the map
before it. -/
theorem C11_SaveUser_updates_map_on_failure :
    ¬ ((NewBotState Database.empty none none none).SaveUser (some storeDown) ann).Users
        = (NewBotState Database.empty none none none).Users := by
  intro h
  have h7 := congrFun h 7
  exact absurd h7 (by decide)

/-- C11, amended: when the store upsert fails, `SaveUser` still records the user in the
in-memory `Users` map under the user's ID and leaves the entries of all other IDs as
they were; the cache of listings, the tentative counter and the session registry are
unchanged. -/
theorem C11_SaveUser_on_failure (bs : BotState) (fault : Option StoreError) (user : User)
    (err : StoreError) (_hfail : (bs.db.SaveUser fault user).1 = Except.error err) :
    (bs.SaveUser fault user).Users user.ID = some user ∧
    (∀ k, k ≠ user.ID → (bs.SaveUser fault user).Users k = bs.Users k) ∧
    FrameKept bs (bs.SaveUser fault user) := by
  refine ⟨by simp [BotState.SaveUser], ?_, ⟨rfl, rfl, rfl, rfl⟩⟩
  intro k hk
  simp [BotState.SaveUser, hk]

/-- C11, amended, on a run: with the store down, saving user 7 makes the map hold user 7. -/
theorem C11_SaveUser_on_failure_witness :
    ((NewBotState Database.empty none none none).SaveUser (some storeDown) ann).Users 7
      = some ann :=
  (C11_SaveUser_on_failure (NewBotState Database.empty none none none) (some storeDown) ann
    storeDown rfl).1

/-! ## C12: a stored listing is found again -/

theorem lt_nextRowid (d : Database) (r : Device) (hr : r ∈ d.devices) : r.ID < d.nextRowid := by
  obtain ⟨m, hm, hle⟩ := maxID_ge d.devices r hr
  have : m ≤ max d.seq m := le_max_right _ _
  simp only [Database.nextRowid, hm]
  omega

theorem SaveDevice_ok (d : Database) (execFault idFault : Option StoreError) (device : Device)
    (i : Int) (hok : (d.SaveDevice execFault idFault device).1 = Except.ok i) :
    i = d.nextRowid ∧
    (d.SaveDevice execFault idFault device).2.devices = d.devices ++ [{ device with ID := i }] := by
  unfold Database.SaveDevice at hok ⊢
  cases execFault with
  | some e => simp at hok
  | none =>
    by_cases hfull : maxInt < d.nextRowid
    · simp [hfull] at hok
    · cases idFault with
      | some e => simp [hfull] at hok
      | none =>
        simp only [hfull, if_false] at hok ⊢
        have hi : d.nextRowid = i := by
          injection hok
        subst hi
        exact ⟨rfl, rfl⟩

theorem find_appended (rows : List Device) (row : Device)
    (hfresh : ∀ r ∈ rows, r.ID ≠ row.ID) :
    (rows ++ [row]).find? (fun r => decide (r.ID = row.ID)) = some row := by
  induction rows with
  | nil => simp
  | cons x xs ih =>
    have hx : x.ID ≠ row.ID := hfresh x (List.mem_cons_self _ _)
    have hxs : ∀ r ∈ xs, r.ID ≠ row.ID := fun r hr => hfresh r (List.mem_cons_of_mem _ hr)
    simp [List.find?, hx, ih hxs]

/-- C12: if the store insert made by `AddDevice(d)` succeeds and returns the ID `i`, and the
store lookup made by the following `FindDeviceByID(i)` goes through, the lookup returns
found = true together with `d` carrying the ID `i`. -/
theorem C12_added_listing_is_found (bs : BotState) (execFault idFault fault : Option StoreError)
    (device : Device) (i : Int) (found : Device × Bool)
    (hok : (bs.db.SaveDevice execFault idFault device).1 = Except.ok i)
    (hreach : ((bs.AddDevice execFault idFault device).db.GetDeviceByID fault i).1
      = Except.ok found) :
    ((bs.AddDevice execFault idFault device).FindDeviceByID fault i).1
      = ({ device with ID := i }, true) := by
  obtain ⟨hi, hrows⟩ := SaveDevice_ok bs.db execFault idFault device i hok
  have hdb : (bs.AddDevice execFault idFault device).db
      = (bs.db.SaveDevice execFault idFault device).2 := by
    simp only [BotState.AddDevice]
    split <;> rfl
  have hfresh : ∀ r ∈ bs.db.devices, r.ID ≠ ({ device with ID := i } : Device).ID := by
    intro r hr
    have := lt_nextRowid bs.db r hr
    simp only
    omega
  have hfind := find_appended bs.db.devices { device with ID := i } hfresh
  cases fault with
  | some e =>
    rw [hdb] at hreach
    simp [Database.GetDeviceByID] at hreach
  | none =>
    simp only [BotState.FindDeviceByID, Database.GetDeviceByID, hdb, hrows]
    simp only [] at hfind
    rw [hfind]

/-- C12 on a run: the store holds ID 5; the insert returns 6 and the lookup of 6 finds the
listing with ID 6. -/
theorem C12_added_listing_is_found_witness :
    (((NewBotState oneListingStore none none none).AddDevice none none
        { galaxyNote with Name := "Pixel 8" }).FindDeviceByID none 6).1
      = ({ galaxyNote with Name := "Pixel 8", ID := 6 }, true) :=
  C12_added_listing_is_found (NewBotState oneListingStore none none none) none none none
    { galaxyNote with Name := "Pixel 8" } 6 ({ galaxyNote with Name := "Pixel 8", ID := 6 }, true)
    rfl rfl

/-! ## C13: the step of a user is not touched by calls for other users -/

theorem step_UserStates (like : String → String → Bool) (caseTable : Char → Char)
    (bs : BotState) (op : Op) (u : Int) (hop : op.userID? ≠ some u) :
    (bs.step like caseTable op).UserStates u = bs.UserStates u := by
  cases op with
  | SetUserState userID state =>
    have hne : u ≠ userID := fun h => hop (by simp [Op.userID?, h])
    simp [BotState.step, BotState.SetUserState, hne]
  | AddDevice execFault idFault device =>
    simp only [BotState.step, BotState.AddDevice]
    split <;> rfl
  | RemoveDevice fault deviceID =>
    simp only [BotState.step, BotState.RemoveDevice]
    split <;> split <;> rfl
  | GetDevicesByCategory fault category =>
    simp only [BotState.step, BotState.GetDevicesByCategory]
    split <;> rfl
  | GetUserDevices fault userID =>
    simp only [BotState.step, BotState.GetUserDevices]
    split <;> rfl
  | FindDeviceByID fault deviceID =>
    simp only [BotState.step, BotState.FindDeviceByID]
    split <;> rfl
  | SearchDevices fault query =>
    simp only [BotState.step, BotState.SearchDevices]
    split <;> rfl
  | GetWaitingInput userID =>
    simp only [BotState.step, BotState.GetWaitingInput]
    split <;> rfl
  | GetDevices => rfl
  | SaveUser fault user => rfl
  | GetUserState userID => rfl
  | SetWaitingInput userID key value => rfl
  | ClearWaitingInput userID => rfl

theorem run_UserStates (like : String → String → Bool) (caseTable : Char → Char)
    (ops : List Op) (u : Int) (hops : ∀ op ∈ ops, op.userID? ≠ some u) :
    ∀ bs : BotState, (bs.run like caseTable ops).UserStates u = bs.UserStates u := by
  induction ops with
  | nil => intro bs; rfl
  | cons op rest ih =>
    intro bs
    rw [run_cons, ih (fun o ho => hops o (List.mem_cons_of_mem _ ho)),
      step_UserStates like caseTable bs op u (hops op (List.mem_cons_self _ _))]

/-- C13: after `SetUserState(u, s)`, any finite sequence of calls of the public methods
none of which carries the user ID `u` leaves the step of `u` alone: `GetUserState(u)`
returns exactly `s`. -/
theorem C13_step_survives_other_users (like : String → String → Bool)
    (caseTable : Char → Char) (bs : BotState) (u : Int) (s : String) (ops : List Op)
    (hother : ∀ op ∈ ops, op.userID? ≠ some u) :
    (((bs.SetUserState u s).run like caseTable ops).GetUserState u).1 = s := by
  simp only [BotState.GetUserState]
  rw [run_UserStates like caseTable ops u hother]
  simp [BotState.SetUserState]

/-- C13 on a run: user 7 is waiting for a price while user 8 sets a step, fills a draft,
adds a listing and reads; user 7 is still waiting for a price. -/
theorem C13_step_survives_other_users_witness :
    (((galaxyState.SetUserState 7 "waiting_device_price").run likeNothing id
        [Op.SetUserState 8 "waiting_device_name", Op.SetWaitingInput 8 "name" "Pixel 8",
          Op.AddDevice (some storeDown) none { galaxyNote with SellerID := 8 },
          Op.RemoveDevice none 1, Op.GetUserState 8, Op.ClearWaitingInput 8,
          Op.SearchDevices (some storeDown) "pixel"]).GetUserState 7).1
      = "waiting_device_price" :=
  C13_step_survives_other_users likeNothing id galaxyState 7 "waiting_device_price" _
    (by decide)

/-! ## Lemmas on the handlers -/

/-- The state a message handler leaves is the state reached by the calls it logs. -/
theorem handleMessage_state_eq_run (lib : Library) (fault : Option StoreError)
    (message : Message) (state : BotState) :
    (handleMessage lib fault message state).state
      = state.run lib.like lib.caseTable (handleMessage lib fault message state).calls := by
  unfold handleMessage
  dsimp only [handleStart, handleHelp]
  split_ifs <;> rfl

/-- The state a callback handler leaves is the state reached by the calls it logs. -/
theorem handleCallbackQuery_state_eq_run (lib : Library) (fault1 fault2 : Option StoreError)
    (callbackQuery : CallbackQuery) (state : BotState) :
    (handleCallbackQuery lib fault1 fault2 callbackQuery state).state
      = state.run lib.like lib.caseTable
          (handleCallbackQuery lib fault1 fault2 callbackQuery state).calls := by
  unfold handleCallbackQuery
  dsimp only [handleHelp]
  by_cases h1 : HasPrefix callbackQuery.Data "cat_" = true
  · rw [if_pos h1]
    by_cases h2 : (state.GetUserState callbackQuery.FromID).1 = "waiting_device_category"
    · rw [if_pos h2]
      rfl
    · rw [if_neg h2]
      rfl
  rw [if_neg h1]
  by_cases h3 : callbackQuery.Data = "browse_devices"
  · rw [if_pos h3]
    rfl
  rw [if_neg h3]
  by_cases h4 : callbackQuery.Data = "browse_all_devices"
  · rw [if_pos h4]
    rfl
  rw [if_neg h4]
  by_cases h5 : callbackQuery.Data = "sell_device"
  · rw [if_pos h5]
    rfl
  rw [if_neg h5]
  by_cases h6 : callbackQuery.Data = "my_devices"
  · rw [if_pos h6]
    rfl
  rw [if_neg h6]
  by_cases h7 : callbackQuery.Data = "search_devices"
  · rw [if_pos h7]
    rfl
  rw [if_neg h7]
  by_cases h8 : callbackQuery.Data = "help"
  · rw [if_pos h8]
    rfl
  rw [if_neg h8]
  by_cases h9 : callbackQuery.Data = "back_to_main"
  · rw [if_pos h9]
    rfl
  rw [if_neg h9]
  by_cases h10 : callbackQuery.Data = "back_to_categories"
  · rw [if_pos h10]
    rfl
  rw [if_neg h10]
  by_cases h11 : HasPrefix callbackQuery.Data "remove_device_" = true
  · rw [if_pos h11]
    split
    · rfl
    · split <;> rfl
  · rw [if_neg h11]
    rfl

/-! ## C14: free-text answers of the sell flow -/

/-- C14: a non-command message received in one of the four free-text steps of the sell
flow is stored under the draft key of that step and moves the user to the step that
follows; no other draft key of the user changes, and the handler makes exactly one
`SetWaitingInput` call and one `SetUserState` call. -/
theorem C14_free_text_fills_current_step (lib : Library) (fault : Option StoreError)
    (message : Message) (state : BotState) (step key next : String)
    (hflow : (step, key, next) ∈ sellFlow)
    (hcmd : message.IsCommand = false)
    (hstep : (state.GetUserState message.FromID).1 = step) :
    ((handleMessage lib fault message state).state.GetWaitingInput message.FromID).1 key
        = some message.Text ∧
    (∀ k, k ≠ key →
      ((handleMessage lib fault message state).state.GetWaitingInput message.FromID).1 k
        = (state.GetWaitingInput message.FromID).1 k) ∧
    ((handleMessage lib fault message state).state.GetUserState message.FromID).1 = next ∧
    (handleMessage lib fault message state).calls
        = [Op.GetUserState message.FromID,
            Op.SetWaitingInput message.FromID key message.Text,
            Op.SetUserState message.FromID next] := by
  have hdraft : ∀ (k v : String) (nxt : String),
      ((((state.GetUserState message.FromID).2.SetWaitingInput message.FromID k v).SetUserState
          message.FromID nxt).GetWaitingInput message.FromID).1 k = some v ∧
      (∀ k', k' ≠ k →
        ((((state.GetUserState message.FromID).2.SetWaitingInput message.FromID k
            v).SetUserState message.FromID nxt).GetWaitingInput message.FromID).1 k'
          = (state.GetWaitingInput message.FromID).1 k') ∧
      ((((state.GetUserState message.FromID).2.SetWaitingInput message.FromID k v).SetUserState
          message.FromID nxt).GetUserState message.FromID).1 = nxt := by
    intro k v nxt
    refine ⟨?_, ?_, ?_⟩
    · simp [BotState.GetWaitingInput, BotState.SetUserState, BotState.SetWaitingInput,
        BotState.GetUserState]
    · intro k' hk'
      simp only [BotState.GetWaitingInput, BotState.SetUserState, BotState.SetWaitingInput,
        BotState.GetUserState, if_true, if_neg hk']
      cases state.WaitingInput message.FromID <;> rfl
    · simp [BotState.GetUserState, BotState.SetUserState]
  simp only [sellFlow, List.mem_cons, Prod.mk.injEq, List.mem_singleton, List.not_mem_nil,
    or_false] at hflow
  rcases hflow with ⟨rfl, rfl, rfl⟩ | ⟨rfl, rfl, rfl⟩ | ⟨rfl, rfl, rfl⟩ | ⟨rfl, rfl, rfl⟩
  all_goals
    obtain ⟨h1, h2, h3⟩ := hdraft _ message.Text _
    simp only [handleMessage, hcmd, hstep]
    simp only [Bool.false_eq_true, if_false, String.reduceEq, if_true]
    exact ⟨h1, h2, h3, trivial⟩

/-- C14 on a run: user 7 is asked for the price and answers 35000; the draft gains the key
price, keeps its name, and the step becomes waiting_device_contact. -/
theorem C14_free_text_fills_current_step_witness :
    (((handleMessage exampleLibrary none (textFrom 7 "35000")
        ((draftedState.ClearWaitingInput 7).SetUserState 7
          "waiting_device_price")).state.GetWaitingInput 7).1 "price" = some "35000") ∧
    ((handleMessage exampleLibrary none (textFrom 7 "35000")
        ((draftedState.ClearWaitingInput 7).SetUserState 7
          "waiting_device_price")).state.GetUserState 7).1 = "waiting_device_contact" :=
  have h := C14_free_text_fills_current_step exampleLibrary none (textFrom 7 "35000")
    ((draftedState.ClearWaitingInput 7).SetUserState 7 "waiting_device_price")
    "waiting_device_price" "price" "waiting_device_contact" (by decide) rfl (by decide)
  ⟨h.1, h.2.2.1⟩

/-! ## C15 and C17: completing the sell flow -/

theorem HasPrefix_append (pre rest : String) : HasPrefix (pre ++ rest) pre = true := by
  simp [HasPrefix, String.data_append]

theorem TrimPrefix_append (pre rest : String) : TrimPrefix (pre ++ rest) pre = rest := by
  simp [TrimPrefix, HasPrefix, String.data_append]

theorem GetWaitingInput_state (bs : BotState) (userID : Int) :
    (bs.GetWaitingInput userID).2 = bs := by
  unfold BotState.GetWaitingInput
  split <;> rfl

/-- What the callback handler does when a category button is pressed by a user who is in
the category step. -/
theorem handleCallbackQuery_sale (lib : Library) (fault1 fault2 : Option StoreError)
    (callbackQuery : CallbackQuery) (state : BotState) (c : String)
    (hdata : callbackQuery.Data = "cat_" ++ c)
    (hstep : (state.GetUserState callbackQuery.FromID).1 = "waiting_device_category") :
    handleCallbackQuery lib fault1 fault2 callbackQuery state =
      ⟨((state.AddDevice fault1 fault2
            (draftListing lib callbackQuery c
              (state.GetWaitingInput callbackQuery.FromID).1)).ClearWaitingInput
          callbackQuery.FromID).SetUserState callbackQuery.FromID "",
        [Op.GetUserState callbackQuery.FromID, Op.GetWaitingInput callbackQuery.FromID,
          Op.AddDevice fault1 fault2
            (draftListing lib callbackQuery c (state.GetWaitingInput callbackQuery.FromID).1),
          Op.ClearWaitingInput callbackQuery.FromID,
          Op.SetUserState callbackQuery.FromID ""],
        [Reply.deviceAdded
          (draftListing lib callbackQuery c (state.GetWaitingInput callbackQuery.FromID).1)]⟩ := by
  have hdevice : Device.mk 0
        (((state.GetWaitingInput callbackQuery.FromID).1 "name").getD "")
        (((state.GetWaitingInput callbackQuery.FromID).1 "description").getD "")
        ((lib.scanFloat
          (((state.GetWaitingInput callbackQuery.FromID).1 "price").getD "")).getD
            (Float64.finite 0))
        callbackQuery.FromID callbackQuery.FirstName
        (((state.GetWaitingInput callbackQuery.FromID).1 "contact").getD "") c
      = draftListing lib callbackQuery c (state.GetWaitingInput callbackQuery.FromID).1 := by
    unfold draftListing
    cases lib.scanFloat (((state.GetWaitingInput callbackQuery.FromID).1 "price").getD "") <;> rfl
  unfold handleCallbackQuery
  dsimp only
  rw [if_pos (by rw [hdata]; exact HasPrefix_append _ _), if_pos hstep]
  have htrim : TrimPrefix callbackQuery.Data "cat_" = c := by
    rw [hdata]
    exact TrimPrefix_append _ _
  rw [htrim]
  have hstate : (state.GetUserState callbackQuery.FromID).2 = state := rfl
  rw [hstate, GetWaitingInput_state, hdevice]

/-! ## Lemmas on callback data -/

theorem firstChar_remove (t : String) : ("remove_device_" ++ t).data.head? = some 'r' := by
  rw [String.data_append]
  rfl

theorem remove_ne_menu (t s : String) (hs : s.data.head? ≠ some 'r') :
    "remove_device_" ++ t ≠ s := by
  intro h
  apply hs
  rw [← h]
  exact firstChar_remove t

theorem remove_not_cat (t : String) : HasPrefix ("remove_device_" ++ t) "cat_" = false := by
  unfold HasPrefix
  rw [String.data_append]
  rfl


theorem AddDevice_devices (bs : BotState) (execFault idFault : Option StoreError)
    (device : Device) :
    ∃ id, (bs.AddDevice execFault idFault device).Devices
      = bs.Devices ++ [{ device with ID := id }] := by
  cases h : (bs.db.SaveDevice execFault idFault device).1 with
  | error err => exact ⟨bs.NextDeviceID, by simp [BotState.AddDevice, h]⟩
  | ok id => exact ⟨id, by simp [BotState.AddDevice, h]⟩

/-- C15: when a user in the category step presses a category button `cat_<c>`, for any
code `c`, the handler calls `AddDevice` exactly once, with the listing assembled from
the draft (name, description and contact from the draft, price scanned from the price
field, seller the user, category `c`); afterwards the user's draft is gone and the
user's step is the empty string. With the draft Pixel 8, like new, 35000, @a and the
button accessory the listing has price 35000 and category accessory. -/
theorem C15_category_selection_completes_sale (lib : Library)
    (fault1 fault2 : Option StoreError) (callbackQuery : CallbackQuery) (state : BotState)
    (c : String) (hdata : callbackQuery.Data = "cat_" ++ c)
    (hstep : (state.GetUserState callbackQuery.FromID).1 = "waiting_device_category") :
    (handleCallbackQuery lib fault1 fault2 callbackQuery state).calls.filter Op.isAddDevice
        = [Op.AddDevice fault1 fault2
            (draftListing lib callbackQuery c (state.GetWaitingInput callbackQuery.FromID).1)] ∧
    (handleCallbackQuery lib fault1 fault2 callbackQuery state).state.WaitingInput
        callbackQuery.FromID = none ∧
    ((handleCallbackQuery lib fault1 fault2 callbackQuery state).state.GetUserState
        callbackQuery.FromID).1 = "" ∧
    (draftListing lib callbackQuery c (state.GetWaitingInput callbackQuery.FromID).1).SellerID
        = callbackQuery.FromID ∧
    (draftListing lib callbackQuery c (state.GetWaitingInput callbackQuery.FromID).1).Category
        = c ∧
    (∀ price, lib.scanFloat (((state.GetWaitingInput callbackQuery.FromID).1 "price").getD "")
        = some price →
      (draftListing lib callbackQuery c (state.GetWaitingInput callbackQuery.FromID).1).Price
        = price) ∧
    (lib.scanFloat "35000" = some (Float64.finite 35000) →
      (state.GetWaitingInput callbackQuery.FromID).1 "name" = some "Pixel 8" →
      (state.GetWaitingInput callbackQuery.FromID).1 "description" = some "like new" →
      (state.GetWaitingInput callbackQuery.FromID).1 "price" = some "35000" →
      (state.GetWaitingInput callbackQuery.FromID).1 "contact" = some "@a" →
      c = "accessory" →
      draftListing lib callbackQuery c (state.GetWaitingInput callbackQuery.FromID).1
        = ⟨0, "Pixel 8", "like new", Float64.finite 35000, callbackQuery.FromID,
            callbackQuery.FirstName, "@a", "accessory"⟩) := by
  rw [handleCallbackQuery_sale lib fault1 fault2 callbackQuery state c hdata hstep]
  refine ⟨rfl, ?_, ?_, rfl, rfl, ?_, ?_⟩
  · simp [BotState.SetUserState, BotState.ClearWaitingInput]
  · simp [BotState.GetUserState, BotState.SetUserState]
  · intro price hprice
    simp [draftListing, hprice]
  · intro hscan hname hdesc hprice hcontact hc
    simp [draftListing, hname, hdesc, hprice, hcontact, hc, hscan]

/-- C15 on the end-to-end scenario: user 7 drafted Pixel 8, like new, 35000, @a and presses
accessory; the cache then holds that listing with price 35000 and category accessory,
the draft is gone and the step is idle. -/
theorem C15_category_selection_completes_sale_witness :
    (handleCallbackQuery exampleLibrary none none (pressed 7 "cat_accessory")
        draftedState).calls.filter Op.isAddDevice
      = [Op.AddDevice none none
          ⟨0, "Pixel 8", "like new", Float64.finite 35000, 7, "Ann", "@a", "accessory"⟩] ∧
    (handleCallbackQuery exampleLibrary none none (pressed 7 "cat_accessory")
        draftedState).state.WaitingInput 7 = none ∧
    ((handleCallbackQuery exampleLibrary none none (pressed 7 "cat_accessory")
        draftedState).state.GetUserState 7).1 = "" :=
  have h := C15_category_selection_completes_sale exampleLibrary none none
    (pressed 7 "cat_accessory") draftedState "accessory" rfl (by decide)
  ⟨(h.2.2.2.2.2.2 rfl rfl rfl rfl rfl rfl) ▸ h.1, h.2.1, h.2.2.1⟩

/-- C17: when the scan of the draft's price text fails, the listing assembled at category
selection has price 0 and the flow completes as usual: `AddDevice` is called with that
listing, the listing is appended to the cache, the confirmation is sent, the draft is
cleared and the step returns to idle. An empty or missing price field is such a text
whenever the scan rejects the empty string. -/
theorem C17_unparseable_price_becomes_zero (lib : Library)
    (fault1 fault2 : Option StoreError) (callbackQuery : CallbackQuery) (state : BotState)
    (c : String) (hdata : callbackQuery.Data = "cat_" ++ c)
    (hstep : (state.GetUserState callbackQuery.FromID).1 = "waiting_device_category") :
    (lib.scanFloat (((state.GetWaitingInput callbackQuery.FromID).1 "price").getD "") = none →
      ∃ device : Device, device.Price = Float64.finite 0 ∧
        (handleCallbackQuery lib fault1 fault2 callbackQuery state).calls.filter Op.isAddDevice
          = [Op.AddDevice fault1 fault2 device] ∧
        (∃ id, (handleCallbackQuery lib fault1 fault2 callbackQuery state).state.Devices
          = state.Devices ++ [{ device with ID := id }]) ∧
        (handleCallbackQuery lib fault1 fault2 callbackQuery state).replies
          = [Reply.deviceAdded device] ∧
        (handleCallbackQuery lib fault1 fault2 callbackQuery state).state.WaitingInput
          callbackQuery.FromID = none ∧
        ((handleCallbackQuery lib fault1 fault2 callbackQuery state).state.GetUserState
          callbackQuery.FromID).1 = "") ∧
    (lib.scanFloat "" = none →
      ((state.GetWaitingInput callbackQuery.FromID).1 "price" = none ∨
        (state.GetWaitingInput callbackQuery.FromID).1 "price" = some "") →
      lib.scanFloat (((state.GetWaitingInput callbackQuery.FromID).1 "price").getD "")
        = none) := by
  rw [handleCallbackQuery_sale lib fault1 fault2 callbackQuery state c hdata hstep]
  constructor
  · intro hscan
    refine ⟨draftListing lib callbackQuery c (state.GetWaitingInput callbackQuery.FromID).1,
      by simp [draftListing, hscan], rfl, ?_, rfl, ?_, ?_⟩
    · exact AddDevice_devices state fault1 fault2 _
    · simp [BotState.SetUserState, BotState.ClearWaitingInput]
    · simp [BotState.GetUserState, BotState.SetUserState]
  · intro hempty hprice
    rcases hprice with h | h <;> rw [h] <;> exact hempty

/-- C17 on a run: user 7 answered "cheap" for the price; the listing added at category
selection has price 0 and the step returns to idle. -/
theorem C17_unparseable_price_becomes_zero_witness :
    (∃ device : Device, device.Price = Float64.finite 0 ∧
      (handleCallbackQuery exampleLibrary none none (pressed 7 "cat_other")
          (draftedState.SetWaitingInput 7 "price" "cheap")).calls.filter Op.isAddDevice
        = [Op.AddDevice none none device]) ∧
    ((handleCallbackQuery exampleLibrary none none (pressed 7 "cat_other")
        (draftedState.SetWaitingInput 7 "price" "cheap")).state.GetUserState 7).1 = "" :=
  have h := (C17_unparseable_price_becomes_zero exampleLibrary none none (pressed 7 "cat_other")
    (draftedState.SetWaitingInput 7 "price" "cheap") "other" rfl (by decide)).1 (by decide)
  match h with
  | ⟨device, hprice, hcalls, _, _, _, hidle⟩ => ⟨⟨device, hprice, hcalls⟩, hidle⟩

/-! ## C16: removal is guarded by the ownership check -/

theorem FindDeviceByID_frame (bs : BotState) (fault : Option StoreError) (deviceID : Int) :
    (bs.FindDeviceByID fault deviceID).2.Devices = bs.Devices ∧
    (bs.FindDeviceByID fault deviceID).2.db.devices = bs.db.devices ∧
    (bs.FindDeviceByID fault deviceID).2.db.users = bs.db.users ∧
    (bs.FindDeviceByID fault deviceID).2.db.seq = bs.db.seq ∧
    (bs.FindDeviceByID fault deviceID).2.Users = bs.Users ∧
    (bs.FindDeviceByID fault deviceID).2.UserStates = bs.UserStates ∧
    (bs.FindDeviceByID fault deviceID).2.WaitingInput = bs.WaitingInput ∧
    (bs.FindDeviceByID fault deviceID).2.NextDeviceID = bs.NextDeviceID := by
  cases fault with
  | some e => simp [BotState.FindDeviceByID, Database.GetDeviceByID]
  | none =>
    simp only [BotState.FindDeviceByID, Database.GetDeviceByID]
    cases bs.db.devices.find? (fun r => decide (r.ID = deviceID)) <;> simp

/-- What the callback handler does when a removal button is pressed. -/
theorem handleCallbackQuery_remove (lib : Library) (fault1 fault2 : Option StoreError)
    (callbackQuery : CallbackQuery) (state : BotState) (t : String)
    (hdata : callbackQuery.Data = "remove_device_" ++ t) :
    handleCallbackQuery lib fault1 fault2 callbackQuery state =
      if (state.FindDeviceByID fault1 ((lib.scanInt t).getD 0)).1.2 = false then
        ⟨(state.FindDeviceByID fault1 ((lib.scanInt t).getD 0)).2,
          [Op.FindDeviceByID fault1 ((lib.scanInt t).getD 0)], [Reply.deviceNotFound]⟩
      else if (state.FindDeviceByID fault1 ((lib.scanInt t).getD 0)).1.1.SellerID
          ≠ callbackQuery.FromID then
        ⟨(state.FindDeviceByID fault1 ((lib.scanInt t).getD 0)).2,
          [Op.FindDeviceByID fault1 ((lib.scanInt t).getD 0)], [Reply.notOwner]⟩
      else
        ⟨((state.FindDeviceByID fault1 ((lib.scanInt t).getD 0)).2.RemoveDevice fault2
            ((lib.scanInt t).getD 0)).2,
          [Op.FindDeviceByID fault1 ((lib.scanInt t).getD 0),
            Op.RemoveDevice fault2 ((lib.scanInt t).getD 0)],
          [if ((state.FindDeviceByID fault1 ((lib.scanInt t).getD 0)).2.RemoveDevice fault2
              ((lib.scanInt t).getD 0)).1 then Reply.removed else Reply.removeFailed]⟩ := by
  have hne : ∀ s : String, s.data.head? ≠ some 'r' → callbackQuery.Data ≠ s := by
    intro s hs
    rw [hdata]
    exact remove_ne_menu t s hs
  unfold handleCallbackQuery
  dsimp only
  rw [if_neg (by rw [hdata, remove_not_cat]; simp),
    if_neg (hne _ (by decide)), if_neg (hne _ (by decide)), if_neg (hne _ (by decide)),
    if_neg (hne _ (by decide)), if_neg (hne _ (by decide)), if_neg (hne _ (by decide)),
    if_neg (hne _ (by decide)), if_neg (hne _ (by decide)),
    if_pos (by rw [hdata]; exact HasPrefix_append _ _)]
  have htrim : TrimPrefix callbackQuery.Data "remove_device_" = t := by
    rw [hdata]
    exact TrimPrefix_append _ _
  rw [htrim]

/-- C16: on a callback `remove_device_<id>`, if no listing is found for the scanned ID or
the listing found belongs to another seller, the handler makes the lookup and no other
call, in particular no `RemoveDevice` call, and the cache, the store's tables and all
sessions stay as they were; `RemoveDevice` is called only when a listing was found and
its seller is the requesting user. -/
theorem C16_removal_requires_ownership (lib : Library) (fault1 fault2 : Option StoreError)
    (callbackQuery : CallbackQuery) (state : BotState) (t : String)
    (hdata : callbackQuery.Data = "remove_device_" ++ t) :
    (((state.FindDeviceByID fault1 ((lib.scanInt t).getD 0)).1.2 = false ∨
        (state.FindDeviceByID fault1 ((lib.scanInt t).getD 0)).1.1.SellerID
          ≠ callbackQuery.FromID) →
      (handleCallbackQuery lib fault1 fault2 callbackQuery state).calls
          = [Op.FindDeviceByID fault1 ((lib.scanInt t).getD 0)] ∧
      (handleCallbackQuery lib fault1 fault2 callbackQuery state).state.Devices
          = state.Devices ∧
      (handleCallbackQuery lib fault1 fault2 callbackQuery state).state.db.devices
          = state.db.devices ∧
      (handleCallbackQuery lib fault1 fault2 callbackQuery state).state.db.users
          = state.db.users ∧
      (handleCallbackQuery lib fault1 fault2 callbackQuery state).state.db.seq
          = state.db.seq ∧
      (handleCallbackQuery lib fault1 fault2 callbackQuery state).state.UserStates
          = state.UserStates ∧
      (handleCallbackQuery lib fault1 fault2 callbackQuery state).state.WaitingInput
          = state.WaitingInput) ∧
    ((∃ op ∈ (handleCallbackQuery lib fault1 fault2 callbackQuery state).calls,
        op.isRemoveDevice = true) →
      (state.FindDeviceByID fault1 ((lib.scanInt t).getD 0)).1.2 = true ∧
      (state.FindDeviceByID fault1 ((lib.scanInt t).getD 0)).1.1.SellerID
        = callbackQuery.FromID) := by
  rw [handleCallbackQuery_remove lib fault1 fault2 callbackQuery state t hdata]
  obtain ⟨f1, f2, f3, f4, _, f6, f7, _⟩ :=
    FindDeviceByID_frame state fault1 ((lib.scanInt t).getD 0)
  by_cases hfound : (state.FindDeviceByID fault1 ((lib.scanInt t).getD 0)).1.2 = false
  · rw [if_pos hfound]
    refine ⟨fun _ => ⟨rfl, f1, f2, f3, f4, f6, f7⟩, ?_⟩
    rintro ⟨op, hop, hrem⟩
    rw [List.mem_singleton.mp hop] at hrem
    cases hrem
  · rw [if_neg hfound]
    by_cases howner : (state.FindDeviceByID fault1 ((lib.scanInt t).getD 0)).1.1.SellerID
        ≠ callbackQuery.FromID
    · rw [if_pos howner]
      refine ⟨fun _ => ⟨rfl, f1, f2, f3, f4, f6, f7⟩, ?_⟩
      rintro ⟨op, hop, hrem⟩
      rw [List.mem_singleton.mp hop] at hrem
      cases hrem
    · rw [if_neg howner]
      refine ⟨fun h => ?_, fun _ => ⟨by simpa using hfound, not_not.mp howner⟩⟩
      rcases h with h | h
      · exact absurd h hfound
      · exact absurd h howner

/-- C16 on a run: the cache and the store hold the listing of seller 7 with ID 1; user 8
presses its removal button and nothing is removed, and the press for the unknown ID 9
is answered the same way. -/
theorem C16_removal_requires_ownership_witness :
    (handleCallbackQuery exampleLibrary none none (pressed 8 "remove_device_1")
        galaxyState).calls = [Op.FindDeviceByID none 1] ∧
    (handleCallbackQuery exampleLibrary none none (pressed 8 "remove_device_1")
        galaxyState).state.Devices = galaxyState.Devices ∧
    (handleCallbackQuery exampleLibrary none none (pressed 7 "remove_device_9")
        galaxyState).state.db.devices = galaxyState.db.devices :=
  have h := (C16_removal_requires_ownership exampleLibrary none none
    (pressed 8 "remove_device_1") galaxyState "1" rfl).1 (Or.inr (by decide))
  have k := (C16_removal_requires_ownership exampleLibrary none none
    (pressed 7 "remove_device_9") galaxyState "9" rfl).1 (Or.inl (by decide))
  ⟨h.1, h.2.1, k.2.2.1⟩

/-! ## C18: listing IDs of the store-less build -/

theorem NoDB_step_invariant (bs : NoDB.BotState) (call : NoDB.Call)
    (hN : 1 ≤ bs.NextDeviceID) (hmax : bs.NextDeviceID + 1 ≤ maxInt)
    (hsorted : (bs.Devices.map (·.ID)).Pairwise (· < ·))
    (hbound : ∀ d ∈ bs.Devices, 1 ≤ d.ID ∧ d.ID < bs.NextDeviceID) :
    bs.NextDeviceID ≤ (bs.step call).NextDeviceID ∧
    (bs.step call).NextDeviceID ≤ bs.NextDeviceID + 1 ∧
    ((bs.step call).Devices.map (·.ID)).Pairwise (· < ·) ∧
    (∀ d ∈ (bs.step call).Devices, 1 ≤ d.ID ∧ d.ID < (bs.step call).NextDeviceID) ∧
    (∀ device, call = NoDB.Call.AddDevice device →
      (bs.step call).NextDeviceID = bs.NextDeviceID + 1) := by
  cases call with
  | AddDevice device =>
    have hw : wrapInt (bs.NextDeviceID + 1) = bs.NextDeviceID + 1 :=
      wrapInt_of_range _ (by unfold minInt; omega) hmax
    simp only [NoDB.BotState.step, NoDB.BotState.AddDevice, hw]
    refine ⟨by omega, by omega, ?_, ?_, fun _ _ => trivial⟩
    · rw [List.map_append, List.pairwise_append]
      refine ⟨hsorted, by simp, ?_⟩
      intro a ha b hb
      obtain ⟨d, hd, rfl⟩ := List.mem_map.mp ha
      simp only [List.map_cons, List.map_nil, List.mem_singleton] at hb
      rw [hb]
      exact (hbound d hd).2
    · intro d hd
      rcases List.mem_append.mp hd with hd | hd
      · have := hbound d hd
        exact ⟨this.1, by omega⟩
      · rw [List.mem_singleton.mp hd]
        simp only
        omega
  | RemoveDevice deviceID =>
    have hdev : (bs.step (NoDB.Call.RemoveDevice deviceID)).Devices
        = bs.Devices.eraseP (fun x => decide (x.ID = deviceID)) := by
      simp only [NoDB.BotState.step]
      rw [NoDB_RemoveDevice_devices]
      exact (removal_spec deviceID bs.Devices).1
    have hcount : (bs.step (NoDB.Call.RemoveDevice deviceID)).NextDeviceID
        = bs.NextDeviceID := by
      simp only [NoDB.BotState.step, NoDB.BotState.RemoveDevice]
      split <;> rfl
    have hsub : (bs.Devices.eraseP (fun x => decide (x.ID = deviceID))).Sublist bs.Devices :=
      List.eraseP_sublist _
    rw [hdev, hcount]
    refine ⟨le_refl _, by omega, hsorted.sublist (hsub.map _), ?_, ?_⟩
    · intro d hd
      exact hbound d (hsub.subset hd)
    · intro device h
      cases h

theorem NoDB_run_cons (bs : NoDB.BotState) (call : NoDB.Call) (calls : List NoDB.Call) :
    bs.run (call :: calls) = (bs.step call).run calls := rfl

theorem NoDB_run_invariant (calls : List NoDB.Call) :
    ∀ bs : NoDB.BotState, 1 ≤ bs.NextDeviceID → bs.NextDeviceID + calls.length ≤ maxInt →
      (bs.Devices.map (·.ID)).Pairwise (· < ·) →
      (∀ d ∈ bs.Devices, 1 ≤ d.ID ∧ d.ID < bs.NextDeviceID) →
      bs.NextDeviceID ≤ (bs.run calls).NextDeviceID ∧
      ((bs.run calls).Devices.map (·.ID)).Pairwise (· < ·) ∧
      (∀ d ∈ (bs.run calls).Devices, 1 ≤ d.ID ∧ d.ID < (bs.run calls).NextDeviceID) ∧
      (∀ a ∈ bs.assigned calls, bs.NextDeviceID ≤ a ∧ a < (bs.run calls).NextDeviceID) ∧
      (bs.assigned calls).Pairwise (· < ·) := by
  induction calls with
  | nil =>
    intro bs _ _ hsorted hbound
    exact ⟨le_refl _, hsorted, hbound, by simp [NoDB.BotState.assigned],
      by simp [NoDB.BotState.assigned]⟩
  | cons call calls ih =>
    intro bs hN hmax hsorted hbound
    simp only [List.length_cons, Nat.cast_add, Nat.cast_one] at hmax
    obtain ⟨s1, s2, s3, s4, s5⟩ :=
      NoDB_step_invariant bs call hN (by omega) hsorted hbound
    obtain ⟨r1, r2, r3, r4, r5⟩ := ih (bs.step call) (by omega) (by omega) s3 s4
    rw [NoDB_run_cons]
    refine ⟨by omega, r2, r3, ?_, ?_⟩
    · cases call with
      | AddDevice device =>
        have hs := s5 device rfl
        intro a ha
        simp only [NoDB.BotState.assigned] at ha
        rcases List.mem_cons.mp ha with rfl | ha
        · exact ⟨le_refl _, by omega⟩
        · have := r4 a ha
          simp only [NoDB.BotState.step] at this hs
          exact ⟨by omega, this.2⟩
      | RemoveDevice deviceID =>
        intro a ha
        simp only [NoDB.BotState.assigned] at ha
        have := r4 a ha
        simp only [NoDB.BotState.step] at this s1
        exact ⟨by omega, this.2⟩
    · cases call with
      | AddDevice device =>
        have hs := s5 device rfl
        simp only [NoDB.BotState.assigned]
        rw [List.pairwise_cons]
        refine ⟨?_, r5⟩
        intro a ha
        have := (r4 a ha).1
        simp only [NoDB.BotState.step] at this hs
        omega
      | RemoveDevice deviceID =>
        simp only [NoDB.BotState.assigned]
        exact r5

/-- C18: in the store-less build, in every state reached from `NewBotState` by calls of
`AddDevice` and `RemoveDevice` (fewer of them than the largest `int`), the held
listings have pairwise distinct IDs, every held ID is at least 1 and below
`NextDeviceID`, and the IDs handed out along the run are strictly increasing, so no ID
is handed out twice, whether or not its listing was removed in between. -/
theorem C18_storeless_ids_unique_and_increasing (calls : List NoDB.Call)
    (hrange : (calls.length : Int) < maxInt) :
    ((NoDB.NewBotState.run calls).Devices.map (·.ID)).Nodup ∧
    (∀ d ∈ (NoDB.NewBotState.run calls).Devices,
      1 ≤ d.ID ∧ d.ID < (NoDB.NewBotState.run calls).NextDeviceID) ∧
    (NoDB.NewBotState.assigned calls).Pairwise (· < ·) ∧
    (NoDB.NewBotState.assigned calls).Nodup := by
  have hinit : NoDB.NewBotState.NextDeviceID + calls.length ≤ maxInt := by
    have : NoDB.NewBotState.NextDeviceID = 1 := rfl
    omega
  obtain ⟨_, h2, h3, _, h5⟩ := NoDB_run_invariant calls NoDB.NewBotState (by decide) hinit
    (by simp [NoDB.NewBotState]) (by simp [NoDB.NewBotState])
  exact ⟨h2.imp (fun h => ne_of_lt h), h3, h5, h5.imp (fun h => ne_of_lt h)⟩

/-- C18 on a run: add, add, remove the listing 2, add; the IDs handed out are 1, 2, 3 and
the ID 2 is not handed out again. -/
theorem C18_storeless_ids_unique_and_increasing_witness :
    (NoDB.NewBotState.assigned
        [NoDB.Call.AddDevice galaxyNote, NoDB.Call.AddDevice galaxyNote,
          NoDB.Call.RemoveDevice 2, NoDB.Call.AddDevice galaxyNote]) = [1, 2, 3] ∧
    (NoDB.NewBotState.assigned
        [NoDB.Call.AddDevice galaxyNote, NoDB.Call.AddDevice galaxyNote,
          NoDB.Call.RemoveDevice 2, NoDB.Call.AddDevice galaxyNote]).Nodup :=
  ⟨by decide, (C18_storeless_ids_unique_and_increasing
      [NoDB.Call.AddDevice galaxyNote, NoDB.Call.AddDevice galaxyNote,
        NoDB.Call.RemoveDevice 2, NoDB.Call.AddDevice galaxyNote] (by decide)).2.2.2⟩

/-! ## C20: the DB-backed build on a failing store behaves like the store-less build -/

/-- C20: when every store call fails, each catalogue method of the DB-backed `BotState`
returns what the method of the store-less `BotState` returns from the same in-memory
state, and leaves the same in-memory state (`Devices`, `Users`, `NextDeviceID`,
`UserStates`, `WaitingInput`). -/
theorem C20_failing_store_refines_storeless (bs : BotState) (err : StoreError)
    (idFault : Option StoreError) (like : String → String → Bool) (caseTable : Char → Char)
    (category query : String) (userID deviceID : Int) (device : Device) (user : User) :
    (bs.GetDevices.1 = bs.memory.GetDevices.1 ∧
      bs.GetDevices.2.memory = bs.memory.GetDevices.2) ∧
    ((bs.GetDevicesByCategory (some err) category).1
        = (bs.memory.GetDevicesByCategory category).1 ∧
      (bs.GetDevicesByCategory (some err) category).2.memory
        = (bs.memory.GetDevicesByCategory category).2) ∧
    ((bs.GetUserDevices (some err) userID).1 = (bs.memory.GetUserDevices userID).1 ∧
      (bs.GetUserDevices (some err) userID).2.memory
        = (bs.memory.GetUserDevices userID).2) ∧
    (bs.AddDevice (some err) idFault device).memory = bs.memory.AddDevice device ∧
    ((bs.RemoveDevice (some err) deviceID).1 = (bs.memory.RemoveDevice deviceID).1 ∧
      (bs.RemoveDevice (some err) deviceID).2.memory
        = (bs.memory.RemoveDevice deviceID).2) ∧
    ((bs.FindDeviceByID (some err) deviceID).1 = (bs.memory.FindDeviceByID deviceID).1 ∧
      (bs.FindDeviceByID (some err) deviceID).2.memory
        = (bs.memory.FindDeviceByID deviceID).2) ∧
    (bs.SaveUser (some err) user).memory = bs.memory.SaveUser user ∧
    ((bs.SearchDevices like caseTable (some err) query).1
        = (bs.memory.SearchDevices caseTable query).1 ∧
      (bs.SearchDevices like caseTable (some err) query).2.memory
        = (bs.memory.SearchDevices caseTable query).2) := by
  refine ⟨⟨rfl, rfl⟩, ⟨rfl, rfl⟩, ⟨rfl, rfl⟩, rfl, ?_, ⟨rfl, rfl⟩, rfl, ⟨rfl, rfl⟩⟩
  simp only [BotState.RemoveDevice, Database.RemoveDevice, NoDB.BotState.RemoveDevice,
    BotState.memory]
  cases firstIndexOfID deviceID bs.Devices <;> exact ⟨rfl, rfl⟩

/-! ## Lemmas on the sessions along the dialogue -/

theorem SearchDevices_sessions (bs : BotState) (like : String → String → Bool)
    (caseTable : Char → Char) (fault : Option StoreError) (query : String) :
    (bs.SearchDevices like caseTable fault query).2.UserStates = bs.UserStates ∧
    (bs.SearchDevices like caseTable fault query).2.WaitingInput = bs.WaitingInput := by
  simp only [BotState.SearchDevices]
  split <;> exact ⟨rfl, rfl⟩

theorem GetDevicesByCategory_sessions (bs : BotState) (fault : Option StoreError)
    (category : String) :
    (bs.GetDevicesByCategory fault category).2.UserStates = bs.UserStates ∧
    (bs.GetDevicesByCategory fault category).2.WaitingInput = bs.WaitingInput := by
  simp only [BotState.GetDevicesByCategory]
  split <;> exact ⟨rfl, rfl⟩

theorem GetUserDevices_sessions (bs : BotState) (fault : Option StoreError) (userID : Int) :
    (bs.GetUserDevices fault userID).2.UserStates = bs.UserStates ∧
    (bs.GetUserDevices fault userID).2.WaitingInput = bs.WaitingInput := by
  simp only [BotState.GetUserDevices]
  split <;> exact ⟨rfl, rfl⟩

theorem AddDevice_sessions (bs : BotState) (execFault idFault : Option StoreError)
    (device : Device) :
    (bs.AddDevice execFault idFault device).UserStates = bs.UserStates ∧
    (bs.AddDevice execFault idFault device).WaitingInput = bs.WaitingInput := by
  simp only [BotState.AddDevice]
  split <;> exact ⟨rfl, rfl⟩

theorem RemoveDevice_sessions (bs : BotState) (fault : Option StoreError) (deviceID : Int) :
    (bs.RemoveDevice fault deviceID).2.UserStates = bs.UserStates ∧
    (bs.RemoveDevice fault deviceID).2.WaitingInput = bs.WaitingInput := by
  simp only [BotState.RemoveDevice]
  split <;> split <;> exact ⟨rfl, rfl⟩

/-- How a message changes the sessions: not at all, or by one answer of the sell flow, or
by leaving the search step. -/
theorem handleMessage_sessions (lib : Library) (fault : Option StoreError)
    (message : Message) (state : BotState) :
    ((handleMessage lib fault message state).state.UserStates = state.UserStates ∧
      (handleMessage lib fault message state).state.WaitingInput = state.WaitingInput) ∨
    (∃ step key next, (step, key, next) ∈ sellFlow ∧
      (state.GetUserState message.FromID).1 = step ∧
      (handleMessage lib fault message state).state
        = (state.SetWaitingInput message.FromID key message.Text).SetUserState
            message.FromID next) ∨
    ((handleMessage lib fault message state).state.UserStates
        = (fun k => if k = message.FromID then some "" else state.UserStates k) ∧
      (handleMessage lib fault message state).state.WaitingInput = state.WaitingInput) := by
  unfold handleMessage
  dsimp only [handleStart, handleHelp]
  by_cases hcmd : message.IsCommand = true
  · rw [if_pos hcmd]
    left
    split_ifs <;> exact ⟨rfl, rfl⟩
  rw [if_neg hcmd]
  by_cases h1 : (state.GetUserState message.FromID).1 = "waiting_device_name"
  · rw [if_pos h1]
    exact Or.inr (Or.inl ⟨_, _, _, by simp [sellFlow], h1, rfl⟩)
  rw [if_neg h1]
  by_cases h2 : (state.GetUserState message.FromID).1 = "waiting_device_description"
  · rw [if_pos h2]
    exact Or.inr (Or.inl ⟨_, _, _, by simp [sellFlow], h2, rfl⟩)
  rw [if_neg h2]
  by_cases h3 : (state.GetUserState message.FromID).1 = "waiting_device_price"
  · rw [if_pos h3]
    exact Or.inr (Or.inl ⟨_, _, _, by simp [sellFlow], h3, rfl⟩)
  rw [if_neg h3]
  by_cases h4 : (state.GetUserState message.FromID).1 = "waiting_device_contact"
  · rw [if_pos h4]
    exact Or.inr (Or.inl ⟨_, _, _, by simp [sellFlow], h4, rfl⟩)
  rw [if_neg h4]
  by_cases h5 : (state.GetUserState message.FromID).1 = "waiting_search_query"
  · rw [if_pos h5]
    obtain ⟨hu, hw⟩ := SearchDevices_sessions (state.GetUserState message.FromID).2 lib.like
      lib.caseTable fault message.Text
    refine Or.inr (Or.inr ⟨?_, ?_⟩)
    · simp only [BotState.SetUserState, hu]
      rfl
    · simp only [BotState.SetUserState, hw]
      rfl
  rw [if_neg h5]
  exact Or.inl ⟨rfl, rfl⟩

/-- How a button press changes the sessions: not at all, or by completing a sale from the
category step, or by entering the sell flow with an empty draft, or by entering the
search step. -/
theorem handleCallbackQuery_sessions (lib : Library) (fault1 fault2 : Option StoreError)
    (callbackQuery : CallbackQuery) (state : BotState) :
    ((handleCallbackQuery lib fault1 fault2 callbackQuery state).state.UserStates
        = state.UserStates ∧
      (handleCallbackQuery lib fault1 fault2 callbackQuery state).state.WaitingInput
        = state.WaitingInput) ∨
    (∃ step, step ≠ "waiting_device_description" ∧ step ≠ "waiting_device_price" ∧
      step ≠ "waiting_device_contact" ∧ step ≠ "waiting_device_category" ∧
      (handleCallbackQuery lib fault1 fault2 callbackQuery state).state.UserStates
        = (fun k => if k = callbackQuery.FromID then some step else state.UserStates k) ∧
      ((handleCallbackQuery lib fault1 fault2 callbackQuery state).state.WaitingInput
          = state.WaitingInput ∨
        (handleCallbackQuery lib fault1 fault2 callbackQuery state).state.WaitingInput
          = (fun k => if k = callbackQuery.FromID then none else state.WaitingInput k))) := by
  unfold handleCallbackQuery
  dsimp only [handleHelp]
  by_cases h1 : HasPrefix callbackQuery.Data "cat_" = true
  · rw [if_pos h1]
    by_cases h2 : (state.GetUserState callbackQuery.FromID).1 = "waiting_device_category"
    · rw [if_pos h2]
      rw [GetWaitingInput_state]
      refine Or.inr ⟨"", by decide, by decide, by decide, by decide, ?_, Or.inr ?_⟩
      · simp only [BotState.SetUserState, BotState.ClearWaitingInput]
        rw [(AddDevice_sessions _ _ _ _).1]
        rfl
      · simp only [BotState.SetUserState, BotState.ClearWaitingInput]
        rw [(AddDevice_sessions _ _ _ _).2]
        rfl
    · rw [if_neg h2]
      exact Or.inl (GetDevicesByCategory_sessions _ fault1 _)
  rw [if_neg h1]
  by_cases h3 : callbackQuery.Data = "browse_devices"
  · rw [if_pos h3]
    exact Or.inl ⟨rfl, rfl⟩
  rw [if_neg h3]
  by_cases h4 : callbackQuery.Data = "browse_all_devices"
  · rw [if_pos h4]
    exact Or.inl ⟨rfl, rfl⟩
  rw [if_neg h4]
  by_cases h5 : callbackQuery.Data = "sell_device"
  · rw [if_pos h5]
    exact Or.inr ⟨"waiting_device_name", by decide, by decide, by decide, by decide, rfl,
      Or.inr rfl⟩
  rw [if_neg h5]
  by_cases h6 : callbackQuery.Data = "my_devices"
  · rw [if_pos h6]
    exact Or.inl (GetUserDevices_sessions _ fault1 _)
  rw [if_neg h6]
  by_cases h7 : callbackQuery.Data = "search_devices"
  · rw [if_pos h7]
    exact Or.inr ⟨"waiting_search_query", by decide, by decide, by decide, by decide, rfl,
      Or.inl rfl⟩
  rw [if_neg h7]
  by_cases h8 : callbackQuery.Data = "help"
  · rw [if_pos h8]
    exact Or.inl ⟨rfl, rfl⟩
  rw [if_neg h8]
  by_cases h9 : callbackQuery.Data = "back_to_main"
  · rw [if_pos h9]
    exact Or.inl ⟨rfl, rfl⟩
  rw [if_neg h9]
  by_cases h10 : callbackQuery.Data = "back_to_categories"
  · rw [if_pos h10]
    exact Or.inl ⟨rfl, rfl⟩
  rw [if_neg h10]
  by_cases h11 : HasPrefix callbackQuery.Data "remove_device_" = true
  · rw [if_pos h11]
    have hfind := FindDeviceByID_frame state fault1
      ((lib.scanInt (TrimPrefix callbackQuery.Data "remove_device_")).getD 0)
    left
    split
    · exact ⟨hfind.2.2.2.2.2.1, hfind.2.2.2.2.2.2.1⟩
    · split
      · exact ⟨hfind.2.2.2.2.2.1, hfind.2.2.2.2.2.2.1⟩
      · obtain ⟨hu, hw⟩ := RemoveDevice_sessions
          (state.FindDeviceByID fault1
            ((lib.scanInt (TrimPrefix callbackQuery.Data "remove_device_")).getD 0)).2 fault2
          ((lib.scanInt (TrimPrefix callbackQuery.Data "remove_device_")).getD 0)
        exact ⟨hu.trans hfind.2.2.2.2.2.1, hw.trans hfind.2.2.2.2.2.2.1⟩
  · rw [if_neg h11]
    exact Or.inl ⟨rfl, rfl⟩

/-! ## C21: the draft matches the step -/

theorem GetWaitingInput_value (bs : BotState) (userID : Int) :
    (bs.GetWaitingInput userID).1 = (bs.WaitingInput userID).getD (fun _ => none) := by
  unfold BotState.GetWaitingInput
  cases bs.WaitingInput userID <;> rfl

theorem DraftMatchesStep_congr (bs bs2 : BotState) (userID : Int)
    (hstate : bs2.UserStates userID = bs.UserStates userID)
    (hinput : bs2.WaitingInput userID = bs.WaitingInput userID)
    (h : DraftMatchesStep bs userID) : DraftMatchesStep bs2 userID := by
  simp only [DraftMatchesStep, HasKey, BotState.GetUserState, GetWaitingInput_value,
    hstate, hinput] at h ⊢
  exact h

theorem DraftMatchesStep_of_early_step (bs : BotState) (userID : Int)
    (h1 : (bs.GetUserState userID).1 ≠ "waiting_device_description")
    (h2 : (bs.GetUserState userID).1 ≠ "waiting_device_price")
    (h3 : (bs.GetUserState userID).1 ≠ "waiting_device_contact")
    (h4 : (bs.GetUserState userID).1 ≠ "waiting_device_category") :
    DraftMatchesStep bs userID :=
  ⟨fun h => absurd h h1, fun h => absurd h h2, fun h => absurd h h3, fun h => absurd h h4⟩

theorem HasKey_after_answer (bs : BotState) (userID : Int) (key value next k : String)
    (h : k = key ∨ HasKey bs userID k) :
    HasKey ((bs.SetWaitingInput userID key value).SetUserState userID next) userID k := by
  by_cases hk : k = key
  · exact ⟨value, by simp [BotState.GetWaitingInput, BotState.SetUserState,
      BotState.SetWaitingInput, hk]⟩
  · rcases h with h | ⟨v, hv⟩
    · exact absurd h hk
    · refine ⟨v, ?_⟩
      simp only [BotState.GetWaitingInput, BotState.SetUserState, BotState.SetWaitingInput,
        if_true, if_neg hk]
      simp only [BotState.GetWaitingInput] at hv
      cases hw : bs.WaitingInput userID with
      | none => simp [hw] at hv
      | some input =>
        simp only [hw] at hv
        simpa using hv

theorem DraftMatchesStep_after_answer (bs : BotState) (userID : Int) (text : String)
    (step key next : String) (hflow : (step, key, next) ∈ sellFlow)
    (hstep : (bs.GetUserState userID).1 = step) (h : DraftMatchesStep bs userID) :
    DraftMatchesStep ((bs.SetWaitingInput userID key text).SetUserState userID next) userID := by
  have hnext : (((bs.SetWaitingInput userID key text).SetUserState userID next).GetUserState
      userID).1 = next := by
    simp [BotState.GetUserState, BotState.SetUserState]
  obtain ⟨i1, i2, i3, i4⟩ := h
  simp only [sellFlow, List.mem_cons, Prod.mk.injEq, List.mem_singleton, List.not_mem_nil,
    or_false] at hflow
  unfold DraftMatchesStep
  rw [hnext]
  rcases hflow with ⟨rfl, rfl, rfl⟩ | ⟨rfl, rfl, rfl⟩ | ⟨rfl, rfl, rfl⟩ | ⟨rfl, rfl, rfl⟩
  · refine ⟨fun _ => HasKey_after_answer _ _ _ _ _ _ (Or.inl rfl), fun h => ?_, fun h => ?_,
      fun h => ?_⟩ <;> exact absurd h (by decide)
  · have hd := i1 hstep
    refine ⟨fun h => ?_, fun _ => ⟨HasKey_after_answer _ _ _ _ _ _ (Or.inr hd),
      HasKey_after_answer _ _ _ _ _ _ (Or.inl rfl)⟩, fun h => ?_, fun h => ?_⟩ <;>
      exact absurd h (by decide)
  · have hd := i2 hstep
    refine ⟨fun h => ?_, fun h => ?_, fun _ => ⟨HasKey_after_answer _ _ _ _ _ _ (Or.inr hd.1),
      HasKey_after_answer _ _ _ _ _ _ (Or.inr hd.2),
      HasKey_after_answer _ _ _ _ _ _ (Or.inl rfl)⟩, fun h => ?_⟩ <;>
      exact absurd h (by decide)
  · have hd := i3 hstep
    refine ⟨fun h => ?_, fun h => ?_, fun h => ?_,
      fun _ => ⟨HasKey_after_answer _ _ _ _ _ _ (Or.inr hd.1),
        HasKey_after_answer _ _ _ _ _ _ (Or.inr hd.2.1),
        HasKey_after_answer _ _ _ _ _ _ (Or.inr hd.2.2),
        HasKey_after_answer _ _ _ _ _ _ (Or.inl rfl)⟩⟩ <;>
      exact absurd h (by decide)

/-- Every update keeps the draft of every user in line with the user's step. -/
theorem handle_keeps_DraftMatchesStep (lib : Library) (bs : BotState) (event : Event)
    (h : ∀ userID, DraftMatchesStep bs userID) :
    ∀ userID, DraftMatchesStep (bs.handle lib event) userID := by
  intro userID
  cases event with
  | message fault message =>
    simp only [BotState.handle]
    rcases handleMessage_sessions lib fault message bs with
      ⟨hu, hw⟩ | ⟨step, key, next, hflow, hstep, hout⟩ | ⟨hu, hw⟩
    · exact DraftMatchesStep_congr bs _ userID (congrFun hu userID) (congrFun hw userID)
        (h userID)
    · rw [hout]
      by_cases hsame : userID = message.FromID
      · subst hsame
        exact DraftMatchesStep_after_answer bs _ message.Text step key next hflow hstep (h _)
      · refine DraftMatchesStep_congr bs _ userID ?_ ?_ (h userID)
        · simp [BotState.SetUserState, BotState.SetWaitingInput, hsame]
        · simp [BotState.SetUserState, BotState.SetWaitingInput, hsame]
    · by_cases hsame : userID = message.FromID
      · subst hsame
        have hidle : ((handleMessage lib fault message bs).state.GetUserState
            message.FromID).1 = "" := by
          simp [BotState.GetUserState, hu]
        exact DraftMatchesStep_of_early_step _ _ (by rw [hidle]; decide)
          (by rw [hidle]; decide) (by rw [hidle]; decide) (by rw [hidle]; decide)
      · refine DraftMatchesStep_congr bs _ userID ?_ (congrFun hw userID) (h userID)
        rw [hu]
        simp [hsame]
  | callback fault1 fault2 callbackQuery =>
    simp only [BotState.handle]
    rcases handleCallbackQuery_sessions lib fault1 fault2 callbackQuery bs with
      ⟨hu, hw⟩ | ⟨step, n1, n2, n3, n4, hu, hw⟩
    · exact DraftMatchesStep_congr bs _ userID (congrFun hu userID) (congrFun hw userID)
        (h userID)
    · by_cases hsame : userID = callbackQuery.FromID
      · subst hsame
        have hstep : ((handleCallbackQuery lib fault1 fault2 callbackQuery bs).state.GetUserState
            callbackQuery.FromID).1 = step := by
          simp [BotState.GetUserState, hu]
        exact DraftMatchesStep_of_early_step _ _ (by rw [hstep]; exact n1)
          (by rw [hstep]; exact n2) (by rw [hstep]; exact n3) (by rw [hstep]; exact n4)
      · refine DraftMatchesStep_congr bs _ userID ?_ ?_ (h userID)
        · rw [hu]
          simp [hsame]
        · rcases hw with hw | hw
          · exact congrFun hw userID
          · rw [hw]
            simp [hsame]

theorem handleAll_cons (lib : Library) (bs : BotState) (event : Event) (events : List Event) :
    bs.handleAll lib (event :: events) = (bs.handle lib event).handleAll lib events := rfl

theorem handleAll_keeps_DraftMatchesStep (lib : Library) (events : List Event) :
    ∀ bs : BotState, (∀ userID, DraftMatchesStep bs userID) →
      ∀ userID, DraftMatchesStep (bs.handleAll lib events) userID := by
  induction events with
  | nil => intro bs h; exact h
  | cons event events ih =>
    intro bs h
    rw [handleAll_cons]
    exact ih _ (handle_keeps_DraftMatchesStep lib bs event h)

theorem NewBotState_sessions (db : Database)
    (usersFault devicesFault nextFault : Option StoreError) (userID : Int) :
    (NewBotState db usersFault devicesFault nextFault).UserStates userID = none := by
  cases usersFault <;> cases devicesFault <;> cases nextFault <;>
    simp [NewBotState, BotState.loadFromDB, Database.GetUsers, Database.GetDevices,
      Database.GetNextDeviceID] <;>
    cases maxID db.devices <;> rfl

/-- C21: in every state reached from the initial `BotState` by any sequence of chat
messages and button presses, for every user: in the step waiting_device_description the
draft has the key name; in waiting_device_price it has name and description; in
waiting_device_contact it has name, description and price; in waiting_device_category it
has name, description, price and contact. So whenever a user is in the category step,
which is when a button press assembles the listing, the draft it is assembled from
holds all four fields. -/
theorem C21_draft_matches_step (lib : Library) (db : Database)
    (usersFault devicesFault nextFault : Option StoreError) (events : List Event)
    (userID : Int) :
    DraftMatchesStep ((NewBotState db usersFault devicesFault nextFault).handleAll lib events)
      userID ∧
    ((((NewBotState db usersFault devicesFault nextFault).handleAll lib events).GetUserState
        userID).1 = "waiting_device_category" →
      ∀ key ∈ ["name", "description", "price", "contact"],
        ∃ value, (((NewBotState db usersFault devicesFault nextFault).handleAll lib
          events).GetWaitingInput userID).1 key = some value) := by
  have hinit : ∀ u, DraftMatchesStep (NewBotState db usersFault devicesFault nextFault) u := by
    intro u
    have hidle : ((NewBotState db usersFault devicesFault nextFault).GetUserState u).1 = "" := by
      simp [BotState.GetUserState, NewBotState_sessions]
    exact DraftMatchesStep_of_early_step _ _ (by rw [hidle]; decide) (by rw [hidle]; decide)
      (by rw [hidle]; decide) (by rw [hidle]; decide)
  have hinv := handleAll_keeps_DraftMatchesStep lib events _ hinit userID
  refine ⟨hinv, ?_⟩
  intro hstep key hkey
  obtain ⟨k1, k2, k3, k4⟩ := hinv.2.2.2 hstep
  simp only [List.mem_cons, List.mem_singleton, List.not_mem_nil, or_false] at hkey
  rcases hkey with rfl | rfl | rfl | rfl
  · exact k1
  · exact k2
  · exact k3
  · exact k4

/-- C21 on the end-to-end scenario: after "sell" and the four answers user 7 is in the
category step and the draft holds the contact and the price. -/
theorem C21_draft_matches_step_witness :
    (((NewBotState Database.empty none none none).handleAll exampleLibrary
        draftEvents).GetWaitingInput 7).1 "contact" = some "@a" ∧
    HasKey ((NewBotState Database.empty none none none).handleAll exampleLibrary draftEvents)
      7 "price" :=
  have h := C21_draft_matches_step exampleLibrary Database.empty none none none draftEvents 7
  ⟨by decide, (h.1.2.2.2 (by decide)).2.2.1⟩

end Marketplace
